import Mathlib

/-!
# terraform-provider-gpcore: node resource and enumeration validators

A shallow embedding of `internal/provider/node.go` and of the two enumeration
validators in `internal/gpcorevalidator`, followed by theorems about them.

Modelling conventions

* Go strings are Lean strings; `strings.Split` is used by the source with the
  one-character separator ":" only and is embedded for such separators.
* The Terraform framework values `types.String`, `types.List`, `types.Map` are the
  inductive types `TfString`, `TfList`, `TfMap` (null, unknown, or known).
* `diag.Diagnostics` is a list of diagnostics. The framework drops a diagnostic
  that is already in the list when it appends, and `Diagnostics.Append` does so too.
* The remote API is a record of functions (`Client`). The answer of `GetNode` may
  change from call to call, so it also receives the number of earlier `GetNode`
  calls. `time.Now` is a function from the number of earlier readings to a time in
  nanoseconds.
* Every handler returns the response it was given, updated. `Node.Create` also
  returns the remote calls it made and its local model.
* `State.Set` and `State.SetAttribute` of the framework store the value and report
  no diagnostic.
* The protobuf enum tables of the generated `cloudv1` package are not part of the
  repository; they are parameters (`cloudv1.Tables`).
* Protobuf messages returned by the client are values: a node message carries its
  flavour, datacenter and image sub-messages.
-/

namespace GPCore

/-! ## Go and gRPC basics -/

/-- Numeric gRPC status code (`codes.Code`, a uint32). -/
abbrev codes.Code := Nat

/-- Status code `codes.OK`. -/
def codes.OK : codes.Code := 0

/-- Status code `codes.Unknown`. -/
def codes.Unknown : codes.Code := 2

/-- Status code `codes.NotFound`. -/
def codes.NotFound : codes.Code := 5

/-- Non-nil Go `error` returned by the client: the code of the gRPC status it
carries (`none` when it is not a status error) and the text of `Error()`. -/
structure GoError where
  grpcCode : Option codes.Code
  Error : String
deriving DecidableEq, Repr

/-- Embedding of `status.Code(err)` for a non-nil error: the code of a status error,
`codes.Unknown` for any other error. -/
def status.Code (err : GoError) : codes.Code :=
  match err.grpcCode with
  | some c => c
  | none => codes.Unknown

/-- Pieces of a character list between occurrences of `sep`. -/
def strings.splitChars (sep : Char) : List Char → List (List Char)
  | [] => [[]]
  | c :: cs =>
    if c = sep then [] :: strings.splitChars sep cs
    else
      match strings.splitChars sep cs with
      | [] => [[c]]
      | p :: ps => (c :: p) :: ps

/-- Embedding of `strings.Split(s, sep)` for a separator of one character. -/
def strings.Split (s : String) (sep : Char) : List String :=
  (strings.splitChars sep s.data).map String.mk

/-- Embedding of `strings.HasSuffix(s, suffix)`. -/
def strings.HasSuffix (s suffix : String) : Bool :=
  suffix.data.isSuffixOf s.data

/-- Embedding of `slices.Contains(xs, x)`. -/
def slices.Contains (xs : List String) (x : String) : Bool :=
  xs.any (fun y => y == x)

/-- Strings joined with one blank between neighbours. -/
def fmt.joinBlank : List String → String
  | [] => ""
  | [x] => x
  | x :: y :: rest => x ++ " " ++ fmt.joinBlank (y :: rest)

/-- Text that the verb `%v` of `fmt` prints for a slice of strings: the elements
separated by blanks, in square brackets. -/
def fmt.Sprintv (xs : List String) : String :=
  "[" ++ fmt.joinBlank xs ++ "]"

/-- Whether `needle` occurs in `hay` as a contiguous piece. -/
def strings.Occurs (hay needle : String) : Prop :=
  needle.data <:+: hay.data

/-! ## Terraform framework values -/

/-- Framework value `types.String`. -/
inductive TfString where
  | null
  | unknown
  | value (s : String)
deriving DecidableEq, Repr

/-- Embedding of `types.String.IsNull`. -/
def TfString.IsNull : TfString → Bool
  | .null => true
  | _ => false

/-- Embedding of `types.String.IsUnknown`. -/
def TfString.IsUnknown : TfString → Bool
  | .unknown => true
  | _ => false

/-- Embedding of `types.String.ValueString`: the empty string for null and unknown. -/
def TfString.ValueString : TfString → String
  | .value s => s
  | _ => ""

/-- Element of a framework list or map (`attr.Value`): a `types.String` or a value
of another type. -/
inductive AttrValue where
  | str (s : TfString)
  | other
deriving DecidableEq, Repr

/-- Framework value `types.List`. -/
inductive TfList where
  | null
  | unknown
  | value (elems : List AttrValue)
deriving DecidableEq, Repr

/-- Embedding of `types.List.IsNull`. -/
def TfList.IsNull : TfList → Bool
  | .null => true
  | _ => false

/-- Embedding of `types.List.Elements`. -/
def TfList.Elements : TfList → List AttrValue
  | .value es => es
  | _ => []

/-- Framework value `types.Map`; the elements are listed in iteration order. -/
inductive TfMap where
  | null
  | unknown
  | value (elems : List (String × AttrValue))
deriving DecidableEq, Repr

/-- Embedding of `types.Map.Elements`. -/
def TfMap.Elements : TfMap → List (String × AttrValue)
  | .value es => es
  | _ => []

/-! ## Diagnostics -/

/-- Severity of a diagnostic. -/
inductive Severity where
  | Error
  | Warning
deriving DecidableEq, Repr

/-- One diagnostic; `path` is set for attribute diagnostics. -/
structure Diagnostic where
  severity : Severity
  path : Option String
  summary : String
  detail : String
deriving DecidableEq, Repr

/-- Embedding of `diag.Diagnostics`. -/
abbrev Diagnostics := List Diagnostic

/-- Embedding of `Diagnostics.Append`: a diagnostic equal to one already present is
skipped. -/
def Diagnostics.Append (diags : Diagnostics) (new : List Diagnostic) : Diagnostics :=
  new.foldl (fun acc d => if d ∈ acc then acc else acc ++ [d]) diags

/-- Embedding of `Diagnostics.AddError`. -/
def Diagnostics.AddError (diags : Diagnostics) (summary detail : String) : Diagnostics :=
  Diagnostics.Append diags [⟨Severity.Error, none, summary, detail⟩]

/-- Embedding of `Diagnostics.AddWarning`. -/
def Diagnostics.AddWarning (diags : Diagnostics) (summary detail : String) : Diagnostics :=
  Diagnostics.Append diags [⟨Severity.Warning, none, summary, detail⟩]

/-- Embedding of `Diagnostics.AddAttributeError`. -/
def Diagnostics.AddAttributeError (diags : Diagnostics) (path summary detail : String) :
    Diagnostics :=
  Diagnostics.Append diags [⟨Severity.Error, some path, summary, detail⟩]

/-- Embedding of `Diagnostics.HasError`. -/
def Diagnostics.HasError (diags : Diagnostics) : Bool :=
  diags.any (fun d => d.severity == Severity.Error)

/-! ## Protocol messages -/

/-- Enum tables of the generated protocol package, in the iteration order of the Go
maps. -/
structure cloudv1.Tables where
  BillingPeriod_name : List (Int × String)
  BillingPeriod_value : List (String × Int)
  ProjectEnvironment_name : List (Int × String)
  NodeStatus_name : List (Int × String)

/-- Text of `String()` on a protobuf enum value: its name, or its number when the
table has no name for it. -/
def cloudv1.enumString (names : List (Int × String)) (n : Int) : String :=
  match names.lookup n with
  | some s => s
  | none => toString n

/-- Go map index `m[key]` on a name-to-number table: zero for a missing key. -/
def cloudv1.enumValue (values : List (String × Int)) (name : String) : Int :=
  match values.lookup name with
  | some n => n
  | none => 0

/-- Message `cloudv1.NetworkInterface` (the field the provider reads). -/
structure cloudv1.NetworkInterface where
  IpAddresses : List String
deriving DecidableEq, Repr

/-- Sub-message with an identifier (`Flavour`, `Datacenter`, `Image`). -/
structure cloudv1.Ref where
  Id : String
deriving DecidableEq, Repr

/-- Message `cloudv1.Node` (the fields the provider reads). -/
structure cloudv1.Node where
  Id : String
  ProjectId : String
  Fqdn : String
  Flavour : cloudv1.Ref
  Datacenter : cloudv1.Ref
  Image : cloudv1.Ref
  BillingPeriod : Int
  Status : Int
  NetworkInterfaces : List cloudv1.NetworkInterface
deriving DecidableEq, Repr

/-- Message `cloudv1.CreateNodeRequest` (the fields the provider sets). -/
structure cloudv1.CreateNodeRequest where
  Fqdns : List String
  ProjectId : String
  FlavourId : String
  DatacenterId : String
  ImageId : String
  BillingPeriod : Int
  Password : Option String
  SshKeyIds : List String
  UserData : Option String
deriving DecidableEq, Repr

/-- Message `cloudv1.GetNodeRequest`. -/
structure cloudv1.GetNodeRequest where
  Id : String
  ProjectId : String
deriving DecidableEq, Repr

/-- Message `cloudv1.UpdateNodeRequest`. -/
structure cloudv1.UpdateNodeRequest where
  Id : String
  ProjectId : String
  Fqdn : Option String
  Tags : List (String × String)
deriving DecidableEq, Repr

/-- Message `cloudv1.DestroyNodeRequest`. -/
structure cloudv1.DestroyNodeRequest where
  Id : String
  ProjectId : String
deriving DecidableEq, Repr

/-- Remote API used by the handlers. `GetNode` receives the number of `GetNode`
calls made before. -/
structure Client where
  CreateNode : cloudv1.CreateNodeRequest → Except GoError (List cloudv1.Node)
  GetNode : Nat → cloudv1.GetNodeRequest → Except GoError cloudv1.Node
  UpdateNode : cloudv1.UpdateNodeRequest → Except GoError cloudv1.Node
  DestroyNode : cloudv1.DestroyNodeRequest → Except GoError Unit

/-- Remote call or sleep made by a handler, in the order made. -/
inductive Call where
  | CreateNode (req : cloudv1.CreateNodeRequest)
  | GetNode (req : cloudv1.GetNodeRequest)
  | UpdateNode (req : cloudv1.UpdateNodeRequest)
  | Sleep (nanoseconds : Int)
deriving DecidableEq, Repr

/-- Whether a call is a `GetNode` call. -/
def Call.isGetNode : Call → Bool
  | .GetNode _ => true
  | _ => false

/-- Whether a call is an `UpdateNode` call. -/
def Call.isUpdateNode : Call → Bool
  | .UpdateNode _ => true
  | _ => false

/-- Whether a call is a `CreateNode` call. -/
def Call.isCreateNode : Call → Bool
  | .CreateNode _ => true
  | _ => false

/-! ## The node resource -/

/-- Resource `Node`. -/
structure Node where
  client : Client

/-- Data model `NodeModel` of the node resource. -/
structure NodeModel where
  ProjectID : TfString
  FlavourID : TfString
  DatacenterID : TfString
  Password : TfString
  SSHKeyIDs : TfList
  UserData : TfString
  FQDN : TfString
  BillingPeriod : TfString
  ImageID : TfString
  IP : TfString
  Tags : TfMap
  Status : TfString
  Id : TfString
deriving DecidableEq, Repr

/-- Value of one attribute in a stored state. -/
inductive StateValue where
  | str (s : TfString)
  | list (l : TfList)
  | map (m : TfMap)
deriving DecidableEq, Repr

/-- Embedding of `tfsdk.State`: the attribute values of the resource, `none` when
the resource is absent from the state. -/
structure State where
  Raw : Option (List (String × StateValue))
deriving DecidableEq, Repr

/-- Replaces the value at `key`, or adds the pair at the end. -/
def State.upsert (key : String) (v : StateValue) :
    List (String × StateValue) → List (String × StateValue)
  | [] => [(key, v)]
  | (k, w) :: rest =>
    if k = key then (key, v) :: rest else (k, w) :: State.upsert key v rest

/-- Embedding of `State.SetAttribute` at a root attribute. -/
def State.SetAttribute (st : State) (attr : String) (v : StateValue) : State :=
  ⟨some (State.upsert attr v (st.Raw.getD []))⟩

/-- Embedding of `State.Set` with a node model. -/
def State.Set (_st : State) (m : NodeModel) : State :=
  ⟨some [("project_id", .str m.ProjectID), ("flavour_id", .str m.FlavourID),
    ("datacenter_id", .str m.DatacenterID), ("password", .str m.Password),
    ("ssh_key_ids", .list m.SSHKeyIDs), ("user_data", .str m.UserData),
    ("fqdn", .str m.FQDN), ("billing_period", .str m.BillingPeriod),
    ("image_id", .str m.ImageID), ("ip", .str m.IP), ("tags", .map m.Tags),
    ("status", .str m.Status), ("id", .str m.Id)]⟩

/-- Embedding of `State.RemoveResource`. -/
def State.RemoveResource (_st : State) : State :=
  ⟨none⟩

/-- Value of a root attribute in a state. -/
def State.GetAttribute (st : State) (attr : String) : Option StateValue :=
  match st.Raw with
  | some attrs => attrs.lookup attr
  | none => none

/-- Outcome of decoding a plan or a state into a model (`Plan.Get`, `State.Get`):
the diagnostics of the decoding and the decoded model. -/
structure Decoded where
  diags : List Diagnostic
  data : NodeModel

/-- First address of the first entry that has one. -/
def NodeModel.firstAddress : List cloudv1.NetworkInterface → Option String
  | [] => none
  | networkInterface :: rest =>
    match networkInterface.IpAddresses with
    | address :: _ => some address
    | [] => NodeModel.firstAddress rest

/-- Embedding of `NodeModel.getPrimaryIP`: the outer loop runs over the network
interfaces, the inner loop returns at the first address it meets. -/
def NodeModel.getPrimaryIP (_nodeModel : NodeModel) (node : cloudv1.Node) : Option String :=
  NodeModel.firstAddress node.NetworkInterfaces

/-- Embedding of `NodeModel.write`. -/
def NodeModel.write (T : cloudv1.Tables) (nodeModel : NodeModel) (node : cloudv1.Node) :
    NodeModel :=
  let m : NodeModel :=
    { nodeModel with
      ProjectID := .value node.ProjectId
      FlavourID := .value node.Flavour.Id
      DatacenterID := .value node.Datacenter.Id
      FQDN := .value node.Fqdn
      BillingPeriod := .value (cloudv1.enumString T.BillingPeriod_name node.BillingPeriod)
      ImageID := .value node.Image.Id
      Id := .value node.Id
      Status := .value (cloudv1.enumString T.NodeStatus_name node.Status) }
  match NodeModel.getPrimaryIP m node with
  | some nodeIP => { m with IP := .value nodeIP }
  | none => m

/-! ### Delete -/

/-- Request of `Delete`: the decoding of the prior state. -/
structure DeleteRequest where
  State : Decoded

/-- Response of `Delete`. -/
structure DeleteResponse where
  State : State
  Diagnostics : Diagnostics
deriving DecidableEq, Repr

/-- Embedding of `Node.Delete`. -/
def Node.Delete (r : Node) (req : DeleteRequest) (resp : DeleteResponse) : DeleteResponse :=
  let data := req.State.data
  let resp := { resp with Diagnostics := Diagnostics.Append resp.Diagnostics req.State.diags }
  if Diagnostics.HasError resp.Diagnostics then resp
  else
    match r.client.DestroyNode
      { Id := data.Id.ValueString, ProjectId := data.ProjectID.ValueString } with
    | .ok _ => resp
    | .error err =>
      if status.Code err ≠ codes.NotFound then
        { resp with Diagnostics := (Diagnostics.AddWarning resp.Diagnostics "Client Warning"
            ("Node that should be deleted does not exist: " ++ err.Error)) }
      else
        { resp with Diagnostics := (Diagnostics.AddError resp.Diagnostics "Client Error"
            ("Unable to delete project, got error: " ++ err.Error)) }

/-! ### Read -/

/-- Request of `Read`: the decoding of the prior state. -/
structure ReadRequest where
  State : Decoded

/-- Response of `Read`. -/
structure ReadResponse where
  State : State
  Diagnostics : Diagnostics
deriving DecidableEq, Repr

/-- Embedding of `Node.Read`. -/
def Node.Read (T : cloudv1.Tables) (r : Node) (req : ReadRequest) (resp : ReadResponse) :
    ReadResponse :=
  let data := req.State.data
  let resp := { resp with Diagnostics := Diagnostics.Append resp.Diagnostics req.State.diags }
  if Diagnostics.HasError resp.Diagnostics then resp
  else if !data.Id.IsNull && !data.ProjectID.IsNull then
    match r.client.GetNode 0
      { Id := data.Id.ValueString, ProjectId := data.ProjectID.ValueString } with
    | .error err =>
      if status.Code err = codes.NotFound then
        { State := State.RemoveResource resp.State
          Diagnostics := (Diagnostics.AddWarning resp.Diagnostics "node not found"
            ("Node with ID " ++ data.Id.ValueString ++ " not found in the project " ++
              data.ProjectID.ValueString ++ ". It has been removed from the state.")) }
      else
        { resp with Diagnostics := (Diagnostics.AddError resp.Diagnostics "Client Error"
            ("Unable to get node, got error: " ++ err.Error)) }
    | .ok node =>
      let data := NodeModel.write T data node
      { resp with State := State.Set resp.State data }
  else
    { resp with Diagnostics := (Diagnostics.AddError resp.Diagnostics "Invalid State"
        "Node ID or Project ID is missing from the state") }

/-! ### ImportState -/

/-- Request of `ImportState`. -/
structure ImportStateRequest where
  ID : String

/-- Response of `ImportState`. -/
structure ImportStateResponse where
  State : State
  Diagnostics : Diagnostics
deriving DecidableEq, Repr

/-- Embedding of `Node.ImportState`. -/
def Node.ImportState (_r : Node) (req : ImportStateRequest) (resp : ImportStateResponse) :
    ImportStateResponse :=
  match strings.Split req.ID ':' with
  | [projectID, nodeID] =>
    let resp := { resp with
      State := State.SetAttribute resp.State "project_id" (.str (.value projectID)) }
    { resp with State := State.SetAttribute resp.State "id" (.str (.value nodeID)) }
  | _ =>
    { resp with Diagnostics := (Diagnostics.AddError resp.Diagnostics "Invalid Import ID"
        "Expected import ID format: project_id:node_id") }

/-! ### Create -/

/-- Duration `time.Second` in nanoseconds. -/
def time.Second : Int := 1000000000

/-- Duration `time.Minute` in nanoseconds. -/
def time.Minute : Int := 60 * time.Second

/-- Request of `Create`: the decoding of the plan. -/
structure CreateRequest where
  Plan : Decoded

/-- Response of `Create`. -/
structure CreateResponse where
  State : State
  Diagnostics : Diagnostics
deriving DecidableEq, Repr

/-- Request that `Create` builds from the plan before it calls `CreateNode`. -/
def Node.createNodeRequest (T : cloudv1.Tables) (data : NodeModel) :
    cloudv1.CreateNodeRequest :=
  { Fqdns := [data.FQDN.ValueString]
    ProjectId := data.ProjectID.ValueString
    FlavourId := data.FlavourID.ValueString
    DatacenterId := data.DatacenterID.ValueString
    ImageId := data.ImageID.ValueString
    BillingPeriod := cloudv1.enumValue T.BillingPeriod_value data.BillingPeriod.ValueString
    Password := if !data.Password.IsNull then some data.Password.ValueString else none
    SshKeyIds :=
      if !data.SSHKeyIDs.IsNull then
        data.SSHKeyIDs.Elements.filterMap (fun sshKeyID =>
          match sshKeyID with
          | .str sshKeyIDString => some sshKeyIDString.ValueString
          | .other => none)
      else []
    UserData := if !data.UserData.IsNull then some data.UserData.ValueString else none }

/-- Tags that `Create` and `Update` copy from the elements of the tags map: the
elements that are strings. -/
def Node.requestTags (elems : List (String × AttrValue)) : List (String × String) :=
  elems.filterMap (fun e =>
    match e.2 with
    | .str stringValue => some (e.1, stringValue.ValueString)
    | .other => none)

/-- Local variables of the polling loop of `Create`: the model, the address found
so far, the calls made so far and the number of clock readings so far. -/
structure PollState where
  data : NodeModel
  nodeIP : Option String
  calls : List Call
  clockReads : Nat
deriving DecidableEq, Repr

/-- How the polling loop of `Create` ends: the deadline check fires, or the loop
condition fails because an address is known. -/
inductive PollExit where
  | timedOut (st : PollState)
  | exited (st : PollState)
deriving DecidableEq, Repr

/-- Local variables at the end of the polling loop. -/
def PollExit.state : PollExit → PollState
  | .timedOut st => st
  | .exited st => st

/-- Number of `GetNode` calls among the calls made. -/
def Call.countGetNode (calls : List Call) : Nat :=
  (calls.filter Call.isGetNode).length

/-- Polling loop of `Node.Create` (`for nodeIP == nil`), run for at most `fuel`
iterations; `none` when the iterations are used up before the loop ends. -/
def Node.Create.poll (T : cloudv1.Tables) (r : Node) (now : Nat → Int) (timeoutAfter : Int) :
    Nat → PollState → Option PollExit
  | 0, st =>
    match st.nodeIP with
    | some _ => some (.exited st)
    | none => none
  | fuel + 1, st =>
    match st.nodeIP with
    | some _ => some (.exited st)
    | none =>
      if now st.clockReads > timeoutAfter then
        some (.timedOut { st with clockReads := st.clockReads + 1 })
      else
        let getNodeRequest : cloudv1.GetNodeRequest :=
          { Id := st.data.Id.ValueString, ProjectId := st.data.ProjectID.ValueString }
        let st1 : PollState :=
          { st with
            clockReads := st.clockReads + 1
            calls := st.calls ++ [Call.Sleep (10 * time.Second), Call.GetNode getNodeRequest] }
        match r.client.GetNode (Call.countGetNode st.calls) getNodeRequest with
        | .ok node =>
          Node.Create.poll T r now timeoutAfter fuel
            { st1 with
              data := NodeModel.write T st.data node
              nodeIP := NodeModel.getPrimaryIP (NodeModel.write T st.data node) node }
        | .error _ => Node.Create.poll T r now timeoutAfter fuel st1

/-- Local variables when the polling loop of `Create` starts, after the response of
`CreateNode` is written to the model and the clock is read for the deadline. -/
def Node.Create.pollStart (T : cloudv1.Tables) (data : NodeModel)
    (nodeData : cloudv1.Node) : PollState :=
  { data := NodeModel.write T data nodeData
    nodeIP := NodeModel.getPrimaryIP (NodeModel.write T data nodeData) nodeData
    calls := [Call.CreateNode (Node.createNodeRequest T data)]
    clockReads := 1 }

/-- What a run of `Create` leaves behind: the response, the local model and the
calls made. -/
structure CreateResult where
  resp : CreateResponse
  data : NodeModel
  calls : List Call
deriving DecidableEq, Repr

/-- Result of running a handler with a loop. -/
inductive Run (α : Type) where
  | done (a : α)
  | panicked
  | outOfFuel
deriving DecidableEq, Repr

/-- Embedding of `Node.Create`. The polling loop runs for at most `fuel` iterations.
Indexing an empty `Nodes` slice panics. -/
def Node.Create (T : cloudv1.Tables) (r : Node) (now : Nat → Int) (fuel : Nat)
    (req : CreateRequest) (resp : CreateResponse) : Run CreateResult :=
  let data := req.Plan.data
  let resp := { resp with Diagnostics := Diagnostics.Append resp.Diagnostics req.Plan.diags }
  if Diagnostics.HasError resp.Diagnostics then .done ⟨resp, data, []⟩
  else
    let createRequest := Node.createNodeRequest T data
    match r.client.CreateNode createRequest with
    | .error err =>
      .done ⟨{ resp with Diagnostics := (Diagnostics.AddError resp.Diagnostics "Client Error"
          ("Unable to create node, got error: " ++ err.Error)) }, data,
        [Call.CreateNode createRequest]⟩
    | .ok [] => .panicked
    | .ok (nodeData :: _) =>
      let timeoutAfter := now 0 + 5 * time.Minute
      match Node.Create.poll T r now timeoutAfter fuel (Node.Create.pollStart T data nodeData) with
      | none => .outOfFuel
      | some (.timedOut st) =>
        .done ⟨{ resp with Diagnostics := (Diagnostics.AddError resp.Diagnostics "Timeout Error"
            "Unable to get node IP address") }, st.data, st.calls⟩
      | some (.exited st) =>
        if st.data.Tags.Elements.length > 0 then
          let updateRequest : cloudv1.UpdateNodeRequest :=
            { Id := nodeData.Id
              ProjectId := nodeData.ProjectId
              Fqdn := some nodeData.Fqdn
              Tags := Node.requestTags st.data.Tags.Elements }
          match r.client.UpdateNode updateRequest with
          | .error err =>
            .done ⟨{ resp with Diagnostics := (Diagnostics.AddError resp.Diagnostics "Client Error"
                ("Unable to update node after creation, got error: " ++ err.Error)) }, st.data,
              st.calls ++ [Call.UpdateNode updateRequest]⟩
          | .ok node =>
            .done ⟨{ resp with State := State.Set resp.State (NodeModel.write T st.data node) },
              NodeModel.write T st.data node, st.calls ++ [Call.UpdateNode updateRequest]⟩
        else
          .done ⟨{ resp with State := State.Set resp.State st.data }, st.data, st.calls⟩

/-! ## Enumeration validators -/

/-- Request of a string validator. -/
structure StringRequest where
  Path : String
  ConfigValue : TfString

/-- Response of a string validator. -/
structure StringResponse where
  Diagnostics : Diagnostics
deriving DecidableEq, Repr

/-- Loop of the two `init` functions: the names of an enum table that do not end in
"_UNSPECIFIED", in iteration order. -/
def validNames (names : List (Int × String)) : List String :=
  names.foldl (fun acc e => if strings.HasSuffix e.2 "_UNSPECIFIED" then acc else acc ++ [e.2]) []

/-- Package variable `validBillingPeriods` after `init`. -/
def validBillingPeriods (T : cloudv1.Tables) : List String :=
  validNames T.BillingPeriod_name

/-- Package variable `validEnvironments` after `init`. -/
def validEnvironments (T : cloudv1.Tables) : List String :=
  validNames T.ProjectEnvironment_name

/-- Embedding of `BillingPeriodValidator.ValidateString`. -/
def BillingPeriodValidator.ValidateString (T : cloudv1.Tables) (req : StringRequest)
    (resp : StringResponse) : StringResponse :=
  if req.ConfigValue.IsUnknown || req.ConfigValue.IsNull then resp
  else if !slices.Contains (validBillingPeriods T) req.ConfigValue.ValueString then
    { resp with Diagnostics := (Diagnostics.AddAttributeError resp.Diagnostics req.Path
        "Invalid Billing Period"
        ("Invalid billing period specified: " ++ req.ConfigValue.ValueString ++
          "\nValid billing periods: " ++ fmt.Sprintv (validBillingPeriods T))) }
  else resp

/-- Embedding of `ProjectEnvironmentValidator.ValidateString`. -/
def ProjectEnvironmentValidator.ValidateString (T : cloudv1.Tables) (req : StringRequest)
    (resp : StringResponse) : StringResponse :=
  if req.ConfigValue.IsUnknown || req.ConfigValue.IsNull then resp
  else if !slices.Contains (validEnvironments T) req.ConfigValue.ValueString then
    { resp with Diagnostics := (Diagnostics.AddAttributeError resp.Diagnostics req.Path
        "Invalid Project Environment"
        ("Invalid project environment specified: " ++ req.ConfigValue.ValueString ++
          "\nValid environments: " ++ fmt.Sprintv (validEnvironments T))) }
  else resp

/-- Primary address as the specification words it: the first address of the first
network interface of the node, absent when the node has no interface or the first
interface has no address. -/
def firstInterfaceAddress (node : cloudv1.Node) : Option String :=
  match node.NetworkInterfaces with
  | [] => none
  | networkInterface :: _ => networkInterface.IpAddresses.head?

/-- Contract of an enumeration validator `validate` over the enum table `names`, on
a response without diagnostics: a diagnostic is added exactly when the value is known
and its string is not a name of the table or is a name ending in "_UNSPECIFIED"; a
diagnostic that is added is the only one, is an error at the path of the request,
and its detail contains the value, the printed list of valid names and so each
valid name; a null or unknown value adds none. On any response the validator
appends what it adds on the empty one. -/
def EnumValidatorContract (validate : StringRequest → StringResponse → StringResponse)
    (names : List (Int × String)) : Prop :=
  ∀ (path : String) (v : TfString),
    ((validate ⟨path, v⟩ ⟨[]⟩).Diagnostics ≠ [] ↔
      ∃ s, v = .value s ∧
        ((¬ ∃ n, (n, s) ∈ names) ∨ strings.HasSuffix s "_UNSPECIFIED" = true)) ∧
    ((validate ⟨path, v⟩ ⟨[]⟩).Diagnostics ≠ [] →
      ∃ d : Diagnostic, (validate ⟨path, v⟩ ⟨[]⟩).Diagnostics = [d] ∧
        d.severity = Severity.Error ∧ d.path = some path ∧
        strings.Occurs d.detail v.ValueString ∧
        strings.Occurs d.detail (fmt.Sprintv (validNames names)) ∧
        ∀ s ∈ validNames names, strings.Occurs d.detail s) ∧
    (v = .null ∨ v = .unknown → (validate ⟨path, v⟩ ⟨[]⟩).Diagnostics = []) ∧
    (∀ resp : StringResponse, (validate ⟨path, v⟩ resp).Diagnostics =
      Diagnostics.Append resp.Diagnostics (validate ⟨path, v⟩ ⟨[]⟩).Diagnostics)

/-! ## Concrete values used to instantiate the theorems -/

/-- Enum tables with an unspecified member and two named members each. -/
def exampleTables : cloudv1.Tables :=
  { BillingPeriod_name :=
      [(0, "BILLING_PERIOD_UNSPECIFIED"), (1, "BILLING_PERIOD_HOURLY"),
        (2, "BILLING_PERIOD_MONTHLY")]
    BillingPeriod_value :=
      [("BILLING_PERIOD_UNSPECIFIED", 0), ("BILLING_PERIOD_HOURLY", 1),
        ("BILLING_PERIOD_MONTHLY", 2)]
    ProjectEnvironment_name :=
      [(0, "PROJECT_ENVIRONMENT_UNSPECIFIED"), (1, "PROJECT_ENVIRONMENT_DEVELOPMENT"),
        (2, "PROJECT_ENVIRONMENT_PRODUCTION")]
    NodeStatus_name := [(0, "NODE_STATUS_UNSPECIFIED"), (1, "NODE_STATUS_READY")] }

/-- Node message with the given network interfaces. -/
def exampleNode (interfaces : List cloudv1.NetworkInterface) : cloudv1.Node :=
  { Id := "n1", ProjectId := "p1", Fqdn := "node.example.com", Flavour := ⟨"f1"⟩,
    Datacenter := ⟨"d1"⟩, Image := ⟨"i1"⟩, BillingPeriod := 1, Status := 1,
    NetworkInterfaces := interfaces }

/-- Model of a node with the given tags; the computed attributes are unknown. -/
def exampleModel (tags : TfMap) : NodeModel :=
  { ProjectID := .value "p1", FlavourID := .value "f1", DatacenterID := .value "d1",
    Password := .null, SSHKeyIDs := .null, UserData := .null,
    FQDN := .value "node.example.com", BillingPeriod := .value "BILLING_PERIOD_HOURLY",
    ImageID := .value "i1", IP := .unknown, Tags := tags, Status := .unknown,
    Id := .value "n1" }

/-- Client whose `DestroyNode` and `GetNode` fail with the given error, and whose
other calls answer with a node without network interfaces. -/
def failingClient (err : GoError) : Client :=
  { CreateNode := fun _ => .ok [exampleNode []]
    GetNode := fun _ _ => .error err
    UpdateNode := fun _ => .ok (exampleNode [])
    DestroyNode := fun _ => .error err }

/-- Client whose first `n` answers to `GetNode` carry no network interface and whose
later answers carry one interface with the address "10.0.0.5". -/
def slowClient (n : Nat) : Client :=
  { CreateNode := fun _ => .ok [exampleNode []]
    GetNode := fun i _ =>
      if i < n then .ok (exampleNode []) else .ok (exampleNode [⟨["10.0.0.5"]⟩])
    UpdateNode := fun _ => .ok (exampleNode [⟨["10.0.0.5"]⟩])
    DestroyNode := fun _ => .ok () }

/-- Clock that advances ten seconds from one reading to the next. -/
def exampleClock (i : Nat) : Int :=
  (i : Int) * (10 * time.Second)

/-- Clock that is past the five-minute deadline from the fourth reading on. -/
def lateClock (i : Nat) : Int :=
  if i < 3 then (i : Int) * (10 * time.Second) else 6 * time.Minute

/-- State of a resource that is absent. -/
def emptyState : State :=
  ⟨none⟩

/-- Local variables of the polling loop of `Create` when it ends on the third answer
of `slowClient 2`, for a plan `exampleModel tags`. -/
def examplePollEnd (tags : TfMap) : PollState :=
  { data :=
      { ProjectID := .value "p1", FlavourID := .value "f1", DatacenterID := .value "d1",
        Password := .null, SSHKeyIDs := .null, UserData := .null,
        FQDN := .value "node.example.com", BillingPeriod := .value "BILLING_PERIOD_HOURLY",
        ImageID := .value "i1", IP := .value "10.0.0.5", Tags := tags,
        Status := .value "NODE_STATUS_READY", Id := .value "n1" }
    nodeIP := some "10.0.0.5"
    calls :=
      [Call.CreateNode (Node.createNodeRequest exampleTables (exampleModel tags)),
        Call.Sleep (10 * time.Second), Call.GetNode ⟨"n1", "p1"⟩,
        Call.Sleep (10 * time.Second), Call.GetNode ⟨"n1", "p1"⟩,
        Call.Sleep (10 * time.Second), Call.GetNode ⟨"n1", "p1"⟩]
    clockReads := 4 }

/-! ## Diagnostics lemmas -/

theorem Diagnostics.Append_single (diags : Diagnostics) (d : Diagnostic) :
    Diagnostics.Append diags [d] = if d ∈ diags then diags else diags ++ [d] := by
  simp [Diagnostics.Append]

theorem Diagnostics.Append_nil (diags : Diagnostics) : Diagnostics.Append diags [] = diags := by
  simp [Diagnostics.Append]

theorem Diagnostics.Append_single_fresh (diags : Diagnostics) (d : Diagnostic)
    (h : d ∉ diags) : Diagnostics.Append diags [d] = diags ++ [d] := by
  simp [Diagnostics.Append_single, h]

theorem Diagnostics.mem_Append_single (diags : Diagnostics) (d x : Diagnostic)
    (h : x ∈ Diagnostics.Append diags [d]) : x ∈ diags ∨ x = d := by
  rw [Diagnostics.Append_single] at h
  split at h
  · exact Or.inl h
  · simpa using h

theorem Diagnostics.HasError_of_mem (diags : Diagnostics) (d : Diagnostic) (hd : d ∈ diags)
    (hs : d.severity = Severity.Error) : Diagnostics.HasError diags = true := by
  simp only [Diagnostics.HasError, List.any_eq_true]
  exact ⟨d, hd, by simp [hs]⟩

theorem Diagnostics.HasError_Append_error (diags : Diagnostics) (d : Diagnostic)
    (hs : d.severity = Severity.Error) :
    Diagnostics.HasError (Diagnostics.Append diags [d]) = true := by
  rw [Diagnostics.Append_single]
  split
  · next h => exact Diagnostics.HasError_of_mem diags d h hs
  · exact Diagnostics.HasError_of_mem _ d (by simp) hs

theorem Diagnostics.HasError_Append_warning (diags : Diagnostics) (d : Diagnostic)
    (hs : d.severity = Severity.Warning) :
    Diagnostics.HasError (Diagnostics.Append diags [d]) = Diagnostics.HasError diags := by
  rw [Diagnostics.Append_single]
  split
  · rfl
  · simp [Diagnostics.HasError, hs]

/-! ## Delete -/

/-- Claim C1, evaluated on the code: when `DestroyNode` fails with the status code
NotFound on an otherwise clean run, `Delete` leaves an error diagnostic in the
response ("Client Error"), so `HasError` is true afterwards. -/
theorem Delete_notFound_leaves_error :
    Node.Delete ⟨failingClient ⟨some codes.NotFound, "rpc error: code = NotFound desc = no node"⟩⟩
        ⟨⟨[], exampleModel .null⟩⟩ ⟨State.Set emptyState (exampleModel .null), []⟩
      = ⟨State.Set emptyState (exampleModel .null),
          [⟨Severity.Error, none, "Client Error",
            "Unable to delete project, got error: rpc error: code = NotFound desc = no node"⟩]⟩
    ∧ Diagnostics.HasError
        (Node.Delete ⟨failingClient ⟨some codes.NotFound, "rpc error: code = NotFound desc = no node"⟩⟩
          ⟨⟨[], exampleModel .null⟩⟩ ⟨State.Set emptyState (exampleModel .null), []⟩).Diagnostics
      = true := by
  constructor <;> decide

/-- Claim C2, evaluated on the code: when `DestroyNode` fails with the status code
Unavailable (14) on an otherwise clean run, `Delete` leaves only a warning
("Client Warning") in the response, so `HasError` is false afterwards. -/
theorem Delete_unavailable_leaves_warning :
    Node.Delete ⟨failingClient ⟨some 14, "rpc error: code = Unavailable desc = down"⟩⟩
        ⟨⟨[], exampleModel .null⟩⟩ ⟨State.Set emptyState (exampleModel .null), []⟩
      = ⟨State.Set emptyState (exampleModel .null),
          [⟨Severity.Warning, none, "Client Warning",
            "Node that should be deleted does not exist: rpc error: code = Unavailable desc = down"⟩]⟩
    ∧ Diagnostics.HasError
        (Node.Delete ⟨failingClient ⟨some 14, "rpc error: code = Unavailable desc = down"⟩⟩
          ⟨⟨[], exampleModel .null⟩⟩ ⟨State.Set emptyState (exampleModel .null), []⟩).Diagnostics
      = false := by
  constructor <;> decide

/-! ## Read -/

/-- Claim C6: when the prior state has a non-null id and project id, its decoding
reports no error, and `GetNode` fails, then (a) if the status code is NotFound, `Read`
removes the resource from the response state and appends one warning and nothing
else (the warning is new unless an equal one is already present), so no error is
reported; (b) for any other code `Read` appends an error diagnostic and leaves the
response state as it was. -/
theorem Read_getNode_failure (T : cloudv1.Tables) (r : Node) (req : ReadRequest)
    (resp : ReadResponse) (err : GoError)
    (hid : req.State.data.Id.IsNull = false)
    (hpid : req.State.data.ProjectID.IsNull = false)
    (hdec : Diagnostics.HasError (Diagnostics.Append resp.Diagnostics req.State.diags) = false)
    (hget : r.client.GetNode 0
      { Id := req.State.data.Id.ValueString
        ProjectId := req.State.data.ProjectID.ValueString } = .error err) :
    (status.Code err = codes.NotFound →
      (Node.Read T r req resp).State = State.RemoveResource resp.State ∧
      (Node.Read T r req resp).State.Raw = none ∧
      Diagnostics.HasError (Node.Read T r req resp).Diagnostics = false ∧
      ∃ w : Diagnostic, w.severity = Severity.Warning ∧ w.summary = "node not found" ∧
        (Node.Read T r req resp).Diagnostics =
          Diagnostics.Append (Diagnostics.Append resp.Diagnostics req.State.diags) [w] ∧
        (w ∉ Diagnostics.Append resp.Diagnostics req.State.diags →
          (Node.Read T r req resp).Diagnostics =
            Diagnostics.Append resp.Diagnostics req.State.diags ++ [w])) ∧
    (status.Code err ≠ codes.NotFound →
      (Node.Read T r req resp).State = resp.State ∧
      Diagnostics.HasError (Node.Read T r req resp).Diagnostics = true ∧
      ∃ e : Diagnostic, e.severity = Severity.Error ∧ e.summary = "Client Error" ∧
        (Node.Read T r req resp).Diagnostics =
          Diagnostics.Append (Diagnostics.Append resp.Diagnostics req.State.diags) [e]) := by
  constructor
  · intro hc
    have hout : Node.Read T r req resp =
        { State := State.RemoveResource resp.State
          Diagnostics := (Diagnostics.AddWarning
            (Diagnostics.Append resp.Diagnostics req.State.diags) "node not found"
            ("Node with ID " ++ req.State.data.Id.ValueString ++ " not found in the project " ++
              req.State.data.ProjectID.ValueString ++ ". It has been removed from the state.")) } := by
      simp [Node.Read, hdec, hid, hpid, hget, hc]
    rw [hout]
    refine ⟨rfl, rfl, ?_, ?_⟩
    · rw [Diagnostics.AddWarning, Diagnostics.HasError_Append_warning _ _ rfl]
      exact hdec
    · exact ⟨_, rfl, rfl, rfl, fun hw => Diagnostics.Append_single_fresh _ _ hw⟩
  · intro hc
    have hout : Node.Read T r req resp =
        { State := resp.State
          Diagnostics := (Diagnostics.AddError
            (Diagnostics.Append resp.Diagnostics req.State.diags) "Client Error"
            ("Unable to get node, got error: " ++ err.Error)) } := by
      simp [Node.Read, hdec, hid, hpid, hget, hc]
    rw [hout]
    refine ⟨rfl, ?_, ?_⟩
    · rw [Diagnostics.AddError]
      exact Diagnostics.HasError_Append_error _ _ rfl
    · exact ⟨_, rfl, rfl, rfl⟩

/-- Instance of `Read_getNode_failure` for claim C6: a failure with code NotFound and a
failure with code Unavailable (14) on a clean prior state. -/
theorem Read_getNode_failure_witness :
    ((Node.Read exampleTables ⟨failingClient ⟨some codes.NotFound, "no node"⟩⟩
        ⟨⟨[], exampleModel .null⟩⟩ ⟨State.Set emptyState (exampleModel .null), []⟩).State.Raw = none ∧
      Diagnostics.HasError (Node.Read exampleTables
        ⟨failingClient ⟨some codes.NotFound, "no node"⟩⟩
        ⟨⟨[], exampleModel .null⟩⟩
        ⟨State.Set emptyState (exampleModel .null), []⟩).Diagnostics = false) ∧
    ((Node.Read exampleTables ⟨failingClient ⟨some 14, "down"⟩⟩
        ⟨⟨[], exampleModel .null⟩⟩ ⟨State.Set emptyState (exampleModel .null), []⟩).State
        = State.Set emptyState (exampleModel .null) ∧
      Diagnostics.HasError (Node.Read exampleTables ⟨failingClient ⟨some 14, "down"⟩⟩
        ⟨⟨[], exampleModel .null⟩⟩
        ⟨State.Set emptyState (exampleModel .null), []⟩).Diagnostics = true) := by
  have h1 := (Read_getNode_failure exampleTables
    ⟨failingClient ⟨some codes.NotFound, "no node"⟩⟩
    ⟨⟨[], exampleModel .null⟩⟩ ⟨State.Set emptyState (exampleModel .null), []⟩
    ⟨some codes.NotFound, "no node"⟩ rfl rfl rfl rfl).1 rfl
  have h2 := (Read_getNode_failure exampleTables ⟨failingClient ⟨some 14, "down"⟩⟩
    ⟨⟨[], exampleModel .null⟩⟩ ⟨State.Set emptyState (exampleModel .null), []⟩
    ⟨some 14, "down"⟩ rfl rfl rfl rfl).2 (by decide)
  exact ⟨⟨h1.2.1, h1.2.2.1⟩, ⟨h2.1, h2.2.1⟩⟩

/-! ## Primary address -/

theorem NodeModel.firstAddress_eq_some (l : List cloudv1.NetworkInterface) (a : String) :
    NodeModel.firstAddress l = some a ↔
      ∃ pre ni post more, l = pre ++ ni :: post ∧ (∀ x ∈ pre, x.IpAddresses = []) ∧
        ni.IpAddresses = a :: more := by
  induction l with
  | nil => simp [NodeModel.firstAddress]
  | cons x rest ih =>
    cases hx : x.IpAddresses with
    | nil =>
      simp only [NodeModel.firstAddress, hx]
      rw [ih]
      constructor
      · rintro ⟨pre, ni, post, more, h1, h2, h3⟩
        refine ⟨x :: pre, ni, post, more, by simp [h1], ?_, h3⟩
        intro y hy
        rcases List.mem_cons.1 hy with rfl | hy
        · exact hx
        · exact h2 y hy
      · rintro ⟨pre, ni, post, more, h1, h2, h3⟩
        cases pre with
        | nil =>
          simp only [List.nil_append, List.cons.injEq] at h1
          rw [h1.1, h3] at hx
          cases hx
        | cons p pre =>
          simp only [List.cons_append, List.cons.injEq] at h1
          exact ⟨pre, ni, post, more, h1.2, fun y hy => h2 y (List.mem_cons_of_mem _ hy), h3⟩
    | cons b more =>
      simp only [NodeModel.firstAddress, hx, Option.some.injEq]
      constructor
      · rintro rfl
        exact ⟨[], x, rest, more, rfl, by simp, hx⟩
      · rintro ⟨pre, ni, post, more2, h1, h2, h3⟩
        cases pre with
        | nil =>
          simp only [List.nil_append, List.cons.injEq] at h1
          rw [h1.1, h3] at hx
          exact (List.cons.inj hx).1.symm
        | cons p pre =>
          simp only [List.cons_append, List.cons.injEq] at h1
          have := h2 p (by simp)
          rw [← h1.1, hx] at this
          cases this

theorem NodeModel.firstAddress_eq_none (l : List cloudv1.NetworkInterface) :
    NodeModel.firstAddress l = none ↔ ∀ ni ∈ l, ni.IpAddresses = [] := by
  induction l with
  | nil => simp [NodeModel.firstAddress]
  | cons x rest ih =>
    cases hx : x.IpAddresses with
    | nil => simp [NodeModel.firstAddress, hx, ih]
    | cons b more => simp [NodeModel.firstAddress, hx]

/-- Claim C10 as stated fails: for a node whose first interface has no address and
whose second interface has the address "10.0.0.5", `getPrimaryIP` returns
"10.0.0.5", while the first address of the first interface is absent. -/
theorem getPrimaryIP_takes_later_interface :
    NodeModel.getPrimaryIP (exampleModel .null) (exampleNode [⟨[]⟩, ⟨["10.0.0.5"]⟩])
        = some "10.0.0.5" ∧
      firstInterfaceAddress (exampleNode [⟨[]⟩, ⟨["10.0.0.5"]⟩]) = none ∧
      NodeModel.getPrimaryIP (exampleModel .null) (exampleNode [⟨[]⟩, ⟨["10.0.0.5"]⟩])
        ≠ firstInterfaceAddress (exampleNode [⟨[]⟩, ⟨["10.0.0.5"]⟩]) := by
  decide

/-- Claim C10, amended: `getPrimaryIP` returns the address `a` exactly when some
network interface has `a` as its first address and every interface before it has no
address; it returns no address exactly when no interface of the node has an address
(in particular when the node has no interface). -/
theorem getPrimaryIP_first_interface_with_address (nodeModel : NodeModel)
    (node : cloudv1.Node) :
    (∀ a : String, NodeModel.getPrimaryIP nodeModel node = some a ↔
      ∃ pre ni post more, node.NetworkInterfaces = pre ++ ni :: post ∧
        (∀ x ∈ pre, x.IpAddresses = []) ∧ ni.IpAddresses = a :: more) ∧
    (NodeModel.getPrimaryIP nodeModel node = none ↔
      ∀ ni ∈ node.NetworkInterfaces, ni.IpAddresses = []) :=
  ⟨fun a => NodeModel.firstAddress_eq_some node.NetworkInterfaces a,
    NodeModel.firstAddress_eq_none node.NetworkInterfaces⟩

/-! ## ImportState -/

theorem strings.splitChars_ne_nil (sep : Char) (l : List Char) :
    strings.splitChars sep l ≠ [] := by
  cases l with
  | nil => simp [strings.splitChars]
  | cons c cs =>
    simp only [strings.splitChars]
    split
    · simp
    · split <;> simp

theorem strings.splitChars_of_not_mem (sep : Char) (l : List Char) (h : sep ∉ l) :
    strings.splitChars sep l = [l] := by
  induction l with
  | nil => rfl
  | cons c cs ih =>
    have hc : c ≠ sep := fun e => h (by simp [e])
    have hcs : sep ∉ cs := fun e => h (List.mem_cons_of_mem _ e)
    simp [strings.splitChars, hc, ih hcs]

theorem strings.splitChars_append_sep (sep : Char) (p rest : List Char) (h : sep ∉ p) :
    strings.splitChars sep (p ++ sep :: rest) = p :: strings.splitChars sep rest := by
  induction p with
  | nil => simp [strings.splitChars]
  | cons c cs ih =>
    have hc : c ≠ sep := fun e => h (by simp [e])
    have hcs : sep ∉ cs := fun e => h (List.mem_cons_of_mem _ e)
    simp [strings.splitChars, hc, ih hcs]

theorem strings.length_splitChars (sep : Char) (l : List Char) :
    (strings.splitChars sep l).length = l.count sep + 1 := by
  induction l with
  | nil => rfl
  | cons c cs ih =>
    by_cases hc : c = sep
    · subst hc
      simp [strings.splitChars, ih]
    · have hne := strings.splitChars_ne_nil sep cs
      cases hs : strings.splitChars sep cs with
      | nil => exact absurd hs hne
      | cons q qs =>
        rw [hs] at ih
        simp only [strings.splitChars, hc, if_false, hs]
        rw [List.count_cons_of_ne (Ne.symm hc)]
        simpa using ih

theorem strings.Split_one_colon (p n : String) (hp : ':' ∉ p.data) (hn : ':' ∉ n.data) :
    strings.Split (p ++ ":" ++ n) ':' = [p, n] := by
  have hd : (p ++ ":" ++ n).data = p.data ++ ':' :: n.data := by
    simp [String.data_append]
  simp [strings.Split, hd, strings.splitChars_append_sep _ _ _ hp,
    strings.splitChars_of_not_mem _ _ hn]

theorem strings.length_Split (s : String) :
    (strings.Split s ':').length = s.data.count ':' + 1 := by
  simp [strings.Split, strings.length_splitChars]

theorem State.lookup_upsert_self (key : String) (v : StateValue)
    (l : List (String × StateValue)) : (State.upsert key v l).lookup key = some v := by
  induction l with
  | nil => simp [State.upsert, List.lookup]
  | cons e rest ih =>
    obtain ⟨k, w⟩ := e
    by_cases hk : k = key
    · simp [State.upsert, hk, List.lookup]
    · have hk2 : (key == k) = false := by simpa using fun e => hk e.symm
      simp [State.upsert, hk, List.lookup, hk2, ih]

theorem State.lookup_upsert_other (key other : String) (v : StateValue)
    (l : List (String × StateValue)) (h : other ≠ key) :
    (State.upsert key v l).lookup other = l.lookup other := by
  induction l with
  | nil =>
    have : (other == key) = false := by simpa using h
    simp [State.upsert, List.lookup, this]
  | cons e rest ih =>
    obtain ⟨k, w⟩ := e
    by_cases hk : k = key
    · subst hk
      have : (other == k) = false := by simpa using h
      simp [State.upsert, List.lookup, this]
    · simp only [State.upsert, hk, if_false, List.lookup]
      split <;> simp_all

theorem State.GetAttribute_imported (st : State) (p n : StateValue) :
    State.GetAttribute (State.SetAttribute (State.SetAttribute st "project_id" p) "id" n)
        "project_id" = some p ∧
      State.GetAttribute (State.SetAttribute (State.SetAttribute st "project_id" p) "id" n)
        "id" = some n := by
  constructor
  · simp only [State.GetAttribute, State.SetAttribute, Option.getD_some]
    rw [State.lookup_upsert_other _ _ _ _ (by decide), State.lookup_upsert_self]
  · simp only [State.GetAttribute, State.SetAttribute, Option.getD_some]
    rw [State.lookup_upsert_self]

theorem Node.ImportState_of_two (r : Node) (req : ImportStateRequest)
    (resp : ImportStateResponse) (p n : String) (h : strings.Split req.ID ':' = [p, n]) :
    Node.ImportState r req resp =
      { State := State.SetAttribute (State.SetAttribute resp.State "project_id"
          (.str (.value p))) "id" (.str (.value n))
        Diagnostics := resp.Diagnostics } := by
  simp [Node.ImportState, h]

theorem Node.ImportState_of_not_two (r : Node) (req : ImportStateRequest)
    (resp : ImportStateResponse) (h : (strings.Split req.ID ':').length ≠ 2) :
    Node.ImportState r req resp =
      { State := resp.State
        Diagnostics := Diagnostics.AddError resp.Diagnostics "Invalid Import ID"
          "Expected import ID format: project_id:node_id" } := by
  unfold Node.ImportState
  split
  · next hs => simp [hs] at h
  · rfl

/-- Claim C3: for an import id made of a part `p`, one colon and a part `n`, neither
part holding a colon, `ImportState` leaves the diagnostics as they were and sets the
state attributes project_id to `p` and id to `n`; for an import id whose number of
colons is not one (none, or two and more), `ImportState` adds the error "Invalid
Import ID", reports an error, and leaves the state as it was. -/
theorem ImportState_format (r : Node) (resp : ImportStateResponse) :
    (∀ p n : String, ':' ∉ p.data → ':' ∉ n.data →
      (Node.ImportState r ⟨p ++ ":" ++ n⟩ resp).Diagnostics = resp.Diagnostics ∧
      (Node.ImportState r ⟨p ++ ":" ++ n⟩ resp).State =
        State.SetAttribute (State.SetAttribute resp.State "project_id" (.str (.value p)))
          "id" (.str (.value n)) ∧
      State.GetAttribute (Node.ImportState r ⟨p ++ ":" ++ n⟩ resp).State "project_id"
        = some (.str (.value p)) ∧
      State.GetAttribute (Node.ImportState r ⟨p ++ ":" ++ n⟩ resp).State "id"
        = some (.str (.value n))) ∧
    (∀ id : String, id.data.count ':' ≠ 1 →
      (Node.ImportState r ⟨id⟩ resp).Diagnostics =
        Diagnostics.AddError resp.Diagnostics "Invalid Import ID"
          "Expected import ID format: project_id:node_id" ∧
      Diagnostics.HasError (Node.ImportState r ⟨id⟩ resp).Diagnostics = true ∧
      (Node.ImportState r ⟨id⟩ resp).State = resp.State) := by
  constructor
  · intro p n hp hn
    rw [Node.ImportState_of_two r ⟨p ++ ":" ++ n⟩ resp p n (strings.Split_one_colon p n hp hn)]
    exact ⟨rfl, rfl, (State.GetAttribute_imported _ _ _).1, (State.GetAttribute_imported _ _ _).2⟩
  · intro id hid
    rw [Node.ImportState_of_not_two r ⟨id⟩ resp (by
      rw [strings.length_Split]
      exact fun h => hid (by simpa using h))]
    exact ⟨rfl, Diagnostics.HasError_Append_error _ _ rfl, rfl⟩

/-- Instances of `ImportState_format` for claim C3: "abc:def" is imported, and "abc",
"" and "abc:def:ghi" are refused without a change of state. -/
theorem ImportState_format_witness :
    (Node.ImportState ⟨slowClient 0⟩ ⟨"abc:def"⟩ ⟨emptyState, []⟩
      = ⟨⟨some [("project_id", .str (.value "abc")), ("id", .str (.value "def"))]⟩, []⟩) ∧
    (Node.ImportState ⟨slowClient 0⟩ ⟨"abc"⟩ ⟨emptyState, []⟩).State = emptyState ∧
    Diagnostics.HasError
      (Node.ImportState ⟨slowClient 0⟩ ⟨"abc"⟩ ⟨emptyState, []⟩).Diagnostics = true ∧
    (Node.ImportState ⟨slowClient 0⟩ ⟨""⟩ ⟨emptyState, []⟩).State = emptyState ∧
    Diagnostics.HasError
      (Node.ImportState ⟨slowClient 0⟩ ⟨""⟩ ⟨emptyState, []⟩).Diagnostics = true ∧
    (Node.ImportState ⟨slowClient 0⟩ ⟨"abc:def:ghi"⟩ ⟨emptyState, []⟩).State = emptyState ∧
    Diagnostics.HasError
      (Node.ImportState ⟨slowClient 0⟩ ⟨"abc:def:ghi"⟩ ⟨emptyState, []⟩).Diagnostics = true := by
  have h := ImportState_format ⟨slowClient 0⟩ ⟨emptyState, []⟩
  have h1 := h.1 "abc" "def" (by decide) (by decide)
  have h2 := h.2 "abc" (by decide)
  have h3 := h.2 "" (by decide)
  have h4 := h.2 "abc:def:ghi" (by decide)
  refine ⟨?_, h2.2.2, h2.2.1, h3.2.2, h3.2.1, h4.2.2, h4.2.1⟩
  decide

/-- Claim C4 as stated fails: the import ids ":def", "abc:" and ":" are accepted.
`ImportState` adds no diagnostic for them and seeds project_id and id, the empty part
as the empty string. -/
theorem ImportState_accepts_empty_parts :
    Node.ImportState ⟨slowClient 0⟩ ⟨":def"⟩ ⟨emptyState, []⟩
      = ⟨⟨some [("project_id", .str (.value "")), ("id", .str (.value "def"))]⟩, []⟩ ∧
    Node.ImportState ⟨slowClient 0⟩ ⟨"abc:"⟩ ⟨emptyState, []⟩
      = ⟨⟨some [("project_id", .str (.value "abc")), ("id", .str (.value ""))]⟩, []⟩ ∧
    Node.ImportState ⟨slowClient 0⟩ ⟨":"⟩ ⟨emptyState, []⟩
      = ⟨⟨some [("project_id", .str (.value "")), ("id", .str (.value ""))]⟩, []⟩ := by
  decide

/-- Claim C4, amended: an import id with exactly one colon whose project-id part or
node-id part is empty is accepted like any other id with one colon. `ImportState`
leaves the diagnostics as they were and sets project_id and id to the two parts, the
empty part as the empty string. -/
theorem ImportState_empty_part_accepted (r : Node) (resp : ImportStateResponse)
    (p n : String) (hp : ':' ∉ p.data) (hn : ':' ∉ n.data) (hempty : p = "" ∨ n = "") :
    (Node.ImportState r ⟨p ++ ":" ++ n⟩ resp).Diagnostics = resp.Diagnostics ∧
    State.GetAttribute (Node.ImportState r ⟨p ++ ":" ++ n⟩ resp).State "project_id"
      = some (.str (.value p)) ∧
    State.GetAttribute (Node.ImportState r ⟨p ++ ":" ++ n⟩ resp).State "id"
      = some (.str (.value n)) ∧
    (State.GetAttribute (Node.ImportState r ⟨p ++ ":" ++ n⟩ resp).State "project_id"
        = some (.str (.value "")) ∨
      State.GetAttribute (Node.ImportState r ⟨p ++ ":" ++ n⟩ resp).State "id"
        = some (.str (.value ""))) := by
  rw [Node.ImportState_of_two r ⟨p ++ ":" ++ n⟩ resp p n (strings.Split_one_colon p n hp hn)]
  refine ⟨rfl, (State.GetAttribute_imported _ _ _).1, (State.GetAttribute_imported _ _ _).2, ?_⟩
  rcases hempty with h | h
  · exact Or.inl (h ▸ (State.GetAttribute_imported _ _ _).1)
  · exact Or.inr (h ▸ (State.GetAttribute_imported _ _ _).2)

/-- Instances of `ImportState_empty_part_accepted` for claim C4: the import ids ":def",
"abc:" and ":" add no diagnostic. -/
theorem ImportState_empty_part_accepted_witness :
    (Node.ImportState ⟨slowClient 0⟩ ⟨"" ++ ":" ++ "def"⟩ ⟨emptyState, []⟩).Diagnostics = [] ∧
    (Node.ImportState ⟨slowClient 0⟩ ⟨"abc" ++ ":" ++ ""⟩ ⟨emptyState, []⟩).Diagnostics = [] ∧
    (Node.ImportState ⟨slowClient 0⟩ ⟨"" ++ ":" ++ ""⟩ ⟨emptyState, []⟩).Diagnostics = [] :=
  ⟨(ImportState_empty_part_accepted ⟨slowClient 0⟩ ⟨emptyState, []⟩ "" "def"
      (by decide) (by decide) (Or.inl rfl)).1,
    (ImportState_empty_part_accepted ⟨slowClient 0⟩ ⟨emptyState, []⟩ "abc" ""
      (by decide) (by decide) (Or.inr rfl)).1,
    (ImportState_empty_part_accepted ⟨slowClient 0⟩ ⟨emptyState, []⟩ "" ""
      (by decide) (by decide) (Or.inl rfl)).1⟩

/-! ## Enumeration validators -/

theorem validNames_foldl (names : List (Int × String)) (acc : List String) :
    names.foldl
        (fun acc e => if strings.HasSuffix e.2 "_UNSPECIFIED" then acc else acc ++ [e.2]) acc
      = acc ++ (names.map Prod.snd).filter (fun s => !strings.HasSuffix s "_UNSPECIFIED") := by
  induction names generalizing acc with
  | nil => simp
  | cons e rest ih =>
    simp only [List.foldl_cons, List.map_cons]
    rw [ih]
    by_cases h : strings.HasSuffix e.2 "_UNSPECIFIED" = true
    · simp [h, List.filter_cons]
    · simp [h, List.filter_cons]

theorem mem_validNames (names : List (Int × String)) (s : String) :
    s ∈ validNames names ↔
      (∃ n, (n, s) ∈ names) ∧ strings.HasSuffix s "_UNSPECIFIED" = false := by
  simp [validNames, validNames_foldl, List.mem_filter]

theorem slices.Contains_iff (xs : List String) (x : String) :
    slices.Contains xs x = true ↔ x ∈ xs := by
  simp [slices.Contains, List.any_eq_true]

theorem strings.Occurs_trans (a b c : String) (h1 : strings.Occurs b a)
    (h2 : strings.Occurs c b) : strings.Occurs c a :=
  List.IsInfix.trans h1 h2

theorem strings.Occurs_append_left (a b : String) : strings.Occurs (a ++ b) a := by
  refine ⟨[], b.data, ?_⟩
  simp [String.data_append]

theorem strings.Occurs_append_right (a b : String) : strings.Occurs (a ++ b) b := by
  refine ⟨a.data, [], ?_⟩
  simp [String.data_append]

theorem fmt.Occurs_joinBlank (xs : List String) (s : String) (h : s ∈ xs) :
    strings.Occurs (fmt.joinBlank xs) s := by
  induction xs with
  | nil => cases h
  | cons x rest ih =>
    cases rest with
    | nil =>
      have hs : s = x := by simpa using h
      subst hs
      exact ⟨[], [], by simp [fmt.joinBlank]⟩
    | cons y rest =>
      rcases List.mem_cons.1 h with hs | hs
      · subst hs
        simp only [fmt.joinBlank]
        exact strings.Occurs_trans _ _ _ (strings.Occurs_append_left s " ")
          (strings.Occurs_append_left _ _)
      · simp only [fmt.joinBlank]
        exact strings.Occurs_trans _ _ _ (ih hs) (strings.Occurs_append_right _ _)

theorem fmt.Occurs_Sprintv (xs : List String) (s : String) (h : s ∈ xs) :
    strings.Occurs (fmt.Sprintv xs) s := by
  unfold fmt.Sprintv
  exact strings.Occurs_trans _ _ _ (fmt.Occurs_joinBlank xs s h)
    (strings.Occurs_trans _ _ _ (strings.Occurs_append_right "[" _)
      (strings.Occurs_append_left _ _))

theorem EnumValidatorContract_of_body
    (validate : StringRequest → StringResponse → StringResponse)
    (names : List (Int × String)) (summary front middle : String)
    (hbody : ∀ req resp, validate req resp =
      if (req.ConfigValue.IsUnknown || req.ConfigValue.IsNull) = true then resp
      else if (!slices.Contains (validNames names) req.ConfigValue.ValueString) = true then
        { resp with Diagnostics := (Diagnostics.AddAttributeError resp.Diagnostics req.Path
            summary
            (front ++ req.ConfigValue.ValueString ++ middle ++ fmt.Sprintv (validNames names))) }
      else resp) :
    EnumValidatorContract validate names := by
  intro path v
  cases v with
  | null =>
    have h : ∀ resp, validate ⟨path, .null⟩ resp = resp := by
      intro resp
      rw [hbody]
      simp [TfString.IsNull]
    simp [h, Diagnostics.Append_nil]
  | unknown =>
    have h : ∀ resp, validate ⟨path, .unknown⟩ resp = resp := by
      intro resp
      rw [hbody]
      simp [TfString.IsUnknown]
    simp [h, Diagnostics.Append_nil]
  | value s =>
    by_cases hc : slices.Contains (validNames names) s = true
    · have h : ∀ resp, validate ⟨path, .value s⟩ resp = resp := by
        intro resp
        rw [hbody]
        simp [TfString.IsNull, TfString.IsUnknown, TfString.ValueString, hc]
      have hm := (mem_validNames names s).1 ((slices.Contains_iff _ _).1 hc)
      refine ⟨?_, ?_, ?_, ?_⟩
      · constructor
        · intro hne
          exact absurd (by rw [h]) hne
        · rintro ⟨s2, hs2, hor⟩
          cases hs2
          rcases hor with hno | hsuf
          · exact absurd hm.1 hno
          · rw [hm.2] at hsuf
            cases hsuf
      · intro hne
        exact absurd (by rw [h]) hne
      · rintro (h0 | h0) <;> cases h0
      · intro resp
        simp [h, Diagnostics.Append_nil]
    · have h : ∀ resp, (validate ⟨path, .value s⟩ resp).Diagnostics =
          Diagnostics.Append resp.Diagnostics [⟨Severity.Error, some path, summary,
            front ++ s ++ middle ++ fmt.Sprintv (validNames names)⟩] := by
        intro resp
        rw [hbody]
        simp [TfString.IsNull, TfString.IsUnknown, TfString.ValueString, hc,
          Diagnostics.AddAttributeError]
      have h0 : (validate ⟨path, .value s⟩ ⟨[]⟩).Diagnostics =
          [⟨Severity.Error, some path, summary,
            front ++ s ++ middle ++ fmt.Sprintv (validNames names)⟩] := by
        rw [h]
        simp [Diagnostics.Append_single]
      have hnm : ¬ s ∈ validNames names := fun hm => hc ((slices.Contains_iff _ _).2 hm)
      refine ⟨?_, ?_, ?_, ?_⟩
      · constructor
        · intro _
          refine ⟨s, rfl, ?_⟩
          by_cases hname : ∃ n, (n, s) ∈ names
          · right
            by_contra hsuf
            exact hnm ((mem_validNames names s).2 ⟨hname, by simpa using hsuf⟩)
          · exact Or.inl hname
        · intro _
          rw [h0]
          simp
      · intro _
        refine ⟨_, h0, rfl, rfl, ?_, ?_, ?_⟩
        · exact strings.Occurs_trans _ _ _ (strings.Occurs_append_right front s)
            (strings.Occurs_trans _ _ _ (strings.Occurs_append_left _ middle)
              (strings.Occurs_append_left _ _))
        · exact strings.Occurs_append_right _ _
        · intro t ht
          exact strings.Occurs_trans _ _ _ (fmt.Occurs_Sprintv _ t ht)
            (strings.Occurs_append_right _ _)
      · rintro (h1 | h1) <;> cases h1
      · intro resp
        rw [h, h0]

/-- Claim C5: `BillingPeriodValidator.ValidateString` and
`ProjectEnvironmentValidator.ValidateString` meet the contract of an enumeration
validator over `BillingPeriod_name` and `ProjectEnvironment_name`: a diagnostic is
added exactly when the value is known and its string is not a name of the enum or
is a name ending in "_UNSPECIFIED"; it is then the only diagnostic, an attribute error
at the path of the request whose detail contains the value and the list of valid
names; a null or unknown value adds no diagnostic. -/
theorem enum_validators_contract (T : cloudv1.Tables) :
    EnumValidatorContract (BillingPeriodValidator.ValidateString T) T.BillingPeriod_name ∧
    EnumValidatorContract (ProjectEnvironmentValidator.ValidateString T)
      T.ProjectEnvironment_name :=
  ⟨EnumValidatorContract_of_body _ _ "Invalid Billing Period"
      "Invalid billing period specified: " "\nValid billing periods: " (fun _ _ => rfl),
    EnumValidatorContract_of_body _ _ "Invalid Project Environment"
      "Invalid project environment specified: " "\nValid environments: " (fun _ _ => rfl)⟩

/-- Instances of `enum_validators_contract` for claim C5 on the example tables: an
unknown and a null value add no diagnostic, and the unspecified member is refused
with one diagnostic. -/
theorem enum_validators_contract_witness :
    (BillingPeriodValidator.ValidateString exampleTables
      ⟨"billing_period", .unknown⟩ ⟨[]⟩).Diagnostics = [] ∧
    (ProjectEnvironmentValidator.ValidateString exampleTables
      ⟨"environment", .null⟩ ⟨[]⟩).Diagnostics = [] ∧
    (BillingPeriodValidator.ValidateString exampleTables
      ⟨"billing_period", .value "BILLING_PERIOD_UNSPECIFIED"⟩ ⟨[]⟩).Diagnostics ≠ [] :=
  ⟨((enum_validators_contract exampleTables).1 "billing_period" .unknown).2.2.1 (Or.inr rfl),
    ((enum_validators_contract exampleTables).2 "environment" .null).2.2.1 (Or.inl rfl),
    ((enum_validators_contract exampleTables).1 "billing_period"
      (.value "BILLING_PERIOD_UNSPECIFIED")).1.2
      ⟨"BILLING_PERIOD_UNSPECIFIED", rfl, Or.inr (by decide)⟩⟩

/-! ## Create: the polling loop -/

theorem NodeModel.write_Tags (T : cloudv1.Tables) (m : NodeModel) (node : cloudv1.Node) :
    (NodeModel.write T m node).Tags = m.Tags := by
  unfold NodeModel.write
  simp only
  split <;> rfl

theorem NodeModel.write_IP_of_some (T : cloudv1.Tables) (m : NodeModel) (node : cloudv1.Node)
    (a : String) (h : NodeModel.firstAddress node.NetworkInterfaces = some a) :
    (NodeModel.write T m node).IP = .value a := by
  unfold NodeModel.write
  simp only [NodeModel.getPrimaryIP, h]

theorem NodeModel.write_IP_of_none (T : cloudv1.Tables) (m : NodeModel) (node : cloudv1.Node)
    (h : NodeModel.firstAddress node.NetworkInterfaces = none) :
    (NodeModel.write T m node).IP = m.IP := by
  unfold NodeModel.write
  simp only [NodeModel.getPrimaryIP, h]

theorem Call.countGetNode_poll_step (calls : List Call) (d : Int)
    (q : cloudv1.GetNodeRequest) :
    Call.countGetNode (calls ++ [Call.Sleep d, Call.GetNode q]) = Call.countGetNode calls + 1 := by
  simp [Call.countGetNode, List.filter_append, List.filter_cons, Call.isGetNode]

theorem Node.Create.poll_of_some (T : cloudv1.Tables) (r : Node) (now : Nat → Int)
    (timeoutAfter : Int) (fuel : Nat) (st : PollState) (a : String)
    (h : st.nodeIP = some a) :
    Node.Create.poll T r now timeoutAfter fuel st = some (.exited st) := by
  cases fuel <;> simp [Node.Create.poll, h]

theorem Node.Create.poll_step (T : cloudv1.Tables) (r : Node) (now : Nat → Int)
    (timeoutAfter : Int) (fuel : Nat) (st : PollState) (h : st.nodeIP = none) :
    Node.Create.poll T r now timeoutAfter (fuel + 1) st =
      if now st.clockReads > timeoutAfter then
        some (.timedOut { st with clockReads := st.clockReads + 1 })
      else
        match r.client.GetNode (Call.countGetNode st.calls)
          { Id := st.data.Id.ValueString, ProjectId := st.data.ProjectID.ValueString } with
        | .ok node =>
          Node.Create.poll T r now timeoutAfter fuel
            { data := NodeModel.write T st.data node
              nodeIP := NodeModel.firstAddress node.NetworkInterfaces
              calls := st.calls ++ [Call.Sleep (10 * time.Second),
                Call.GetNode { Id := st.data.Id.ValueString
                               ProjectId := st.data.ProjectID.ValueString }]
              clockReads := st.clockReads + 1 }
        | .error _ =>
          Node.Create.poll T r now timeoutAfter fuel
            { st with
              calls := st.calls ++ [Call.Sleep (10 * time.Second),
                Call.GetNode { Id := st.data.Id.ValueString
                               ProjectId := st.data.ProjectID.ValueString }]
              clockReads := st.clockReads + 1 } := by
  rw [Node.Create.poll]
  simp only [h, NodeModel.getPrimaryIP]

theorem Node.Create.poll_invariant (T : cloudv1.Tables) (r : Node) (now : Nat → Int)
    (timeoutAfter : Int) (fuel : Nat) :
    ∀ (st : PollState) (e : PollExit),
      Node.Create.poll T r now timeoutAfter fuel st = some e →
      e.state.data.Tags = st.data.Tags ∧
      ∃ extra, e.state.calls = st.calls ++ extra ∧
        ∀ c ∈ extra, c.isUpdateNode = false ∧ c.isCreateNode = false := by
  induction fuel with
  | zero =>
    intro st e h
    cases hip : st.nodeIP with
    | none => simp [Node.Create.poll, hip] at h
    | some a =>
      rw [Node.Create.poll_of_some T r now timeoutAfter 0 st a hip] at h
      cases h
      exact ⟨rfl, [], by simp [PollExit.state], by simp⟩
  | succ fuel ih =>
    intro st e h
    cases hip : st.nodeIP with
    | some a =>
      rw [Node.Create.poll_of_some T r now timeoutAfter _ st a hip] at h
      cases h
      exact ⟨rfl, [], by simp [PollExit.state], by simp⟩
    | none =>
      rw [Node.Create.poll_step T r now timeoutAfter fuel st hip] at h
      split at h
      · cases h
        exact ⟨rfl, [], by simp [PollExit.state], by simp⟩
      · split at h
        · obtain ⟨h1, extra, h2, h3⟩ := ih _ e h
          refine ⟨by rw [h1]; exact NodeModel.write_Tags T _ _,
            Call.Sleep (10 * time.Second) :: Call.GetNode
              { Id := st.data.Id.ValueString
                ProjectId := st.data.ProjectID.ValueString } :: extra, ?_, ?_⟩
          · rw [h2]
            simp
          · intro c hc
            simp only [List.mem_cons] at hc
            rcases hc with rfl | rfl | hc
            · exact ⟨rfl, rfl⟩
            · exact ⟨rfl, rfl⟩
            · exact h3 c hc
        · obtain ⟨h1, extra, h2, h3⟩ := ih _ e h
          refine ⟨h1,
            Call.Sleep (10 * time.Second) :: Call.GetNode
              { Id := st.data.Id.ValueString
                ProjectId := st.data.ProjectID.ValueString } :: extra, ?_, ?_⟩
          · rw [h2]
            simp
          · intro c hc
            simp only [List.mem_cons] at hc
            rcases hc with rfl | rfl | hc
            · exact ⟨rfl, rfl⟩
            · exact ⟨rfl, rfl⟩
            · exact h3 c hc

theorem Node.Create.poll_obtains (T : cloudv1.Tables) (r : Node) (now : Nat → Int)
    (timeoutAfter : Int) (a : String) (N : Nat) :
    ∀ (fuel : Nat) (st : PollState), st.nodeIP = none → N < fuel →
      (∀ i, i < N → ∀ q, ∃ node,
        r.client.GetNode (Call.countGetNode st.calls + i) q = .ok node ∧
          node.NetworkInterfaces = []) →
      (∀ q, ∃ node more,
        r.client.GetNode (Call.countGetNode st.calls + N) q = .ok node ∧
          node.NetworkInterfaces = [⟨a :: more⟩]) →
      (∀ i, i ≤ N → ¬ now (st.clockReads + i) > timeoutAfter) →
      ∃ st2, Node.Create.poll T r now timeoutAfter fuel st = some (.exited st2) ∧
        Call.countGetNode st2.calls = Call.countGetNode st.calls + N + 1 ∧
        st2.nodeIP = some a ∧ st2.data.IP = .value a := by
  induction N with
  | zero =>
    intro fuel st hip hfuel _ hlast hclock
    obtain ⟨fuel, rfl⟩ : ∃ f, fuel = f + 1 := ⟨fuel - 1, by omega⟩
    obtain ⟨node, more, hget, hni⟩ := hlast
      { Id := st.data.Id.ValueString, ProjectId := st.data.ProjectID.ValueString }
    have hc := hclock 0 (Nat.le_refl 0)
    simp only [Nat.add_zero] at hc hget
    have hfa : NodeModel.firstAddress node.NetworkInterfaces = some a := by
      simp [hni, NodeModel.firstAddress]
    rw [Node.Create.poll_step T r now timeoutAfter fuel st hip, if_neg hc, hget]
    simp only
    rw [Node.Create.poll_of_some T r now timeoutAfter fuel _ a hfa]
    exact ⟨_, rfl, Call.countGetNode_poll_step _ _ _, hfa,
      NodeModel.write_IP_of_some T _ _ a hfa⟩
  | succ N ih =>
    intro fuel st hip hfuel hfirst hlast hclock
    obtain ⟨fuel, rfl⟩ : ∃ f, fuel = f + 1 := ⟨fuel - 1, by omega⟩
    obtain ⟨node, hget, hni⟩ := hfirst 0 (Nat.succ_pos N)
      { Id := st.data.Id.ValueString, ProjectId := st.data.ProjectID.ValueString }
    have hc := hclock 0 (Nat.zero_le _)
    simp only [Nat.add_zero] at hc hget
    have hfa : NodeModel.firstAddress node.NetworkInterfaces = none := by
      simp [hni, NodeModel.firstAddress]
    rw [Node.Create.poll_step T r now timeoutAfter fuel st hip, if_neg hc, hget]
    simp only
    have hcount := Call.countGetNode_poll_step st.calls (10 * time.Second)
      { Id := st.data.Id.ValueString, ProjectId := st.data.ProjectID.ValueString }
    obtain ⟨st2, h1, h2, h3, h4⟩ := ih fuel
      { data := NodeModel.write T st.data node
        nodeIP := NodeModel.firstAddress node.NetworkInterfaces
        calls := st.calls ++ [Call.Sleep (10 * time.Second),
          Call.GetNode { Id := st.data.Id.ValueString
                         ProjectId := st.data.ProjectID.ValueString }]
        clockReads := st.clockReads + 1 }
      hfa (by omega)
      (by
        intro i hi q
        simp only [hcount]
        have := hfirst (i + 1) (by omega) q
        rwa [← Nat.add_assoc, Nat.add_right_comm] at this)
      (by
        intro q
        simp only [hcount]
        have := hlast q
        rwa [← Nat.add_assoc, Nat.add_right_comm] at this)
      (by
        intro i hi
        have := hclock (i + 1) (by omega)
        simpa [Nat.add_assoc, Nat.add_comm 1 i] using this)
    refine ⟨st2, h1, ?_, h3, h4⟩
    rw [h2, hcount]
    omega

theorem Node.Create.poll_expires (T : cloudv1.Tables) (r : Node) (now : Nat → Int)
    (timeoutAfter : Int) (K : Nat) :
    ∀ (fuel : Nat) (st : PollState), st.nodeIP = none → K < fuel →
      (∀ i, i < K → ¬ now (st.clockReads + i) > timeoutAfter) →
      now (st.clockReads + K) > timeoutAfter →
      (∀ i, i < K → ∀ q node,
        r.client.GetNode (Call.countGetNode st.calls + i) q = .ok node →
          NodeModel.firstAddress node.NetworkInterfaces = none) →
      ∃ st2, Node.Create.poll T r now timeoutAfter fuel st = some (.timedOut st2) ∧
        st2.nodeIP = none ∧ st2.data.IP = st.data.IP := by
  induction K with
  | zero =>
    intro fuel st hip hfuel _ hlate _
    obtain ⟨fuel, rfl⟩ : ∃ f, fuel = f + 1 := ⟨fuel - 1, by omega⟩
    simp only [Nat.add_zero] at hlate
    rw [Node.Create.poll_step T r now timeoutAfter fuel st hip, if_pos hlate]
    exact ⟨_, rfl, hip, rfl⟩
  | succ K ih =>
    intro fuel st hip hfuel hclock hlate hresp
    obtain ⟨fuel, rfl⟩ : ∃ f, fuel = f + 1 := ⟨fuel - 1, by omega⟩
    have hc := hclock 0 (Nat.succ_pos K)
    simp only [Nat.add_zero] at hc
    have hcount := Call.countGetNode_poll_step st.calls (10 * time.Second)
      { Id := st.data.Id.ValueString, ProjectId := st.data.ProjectID.ValueString }
    have hclock2 : ∀ i, i < K → ¬ now (st.clockReads + 1 + i) > timeoutAfter := by
      intro i hi
      have := hclock (i + 1) (by omega)
      simpa [Nat.add_assoc, Nat.add_comm 1 i] using this
    have hlate2 : now (st.clockReads + 1 + K) > timeoutAfter := by
      simpa [Nat.add_assoc, Nat.add_comm 1 K] using hlate
    rw [Node.Create.poll_step T r now timeoutAfter fuel st hip, if_neg hc]
    cases hget : r.client.GetNode (Call.countGetNode st.calls)
        { Id := st.data.Id.ValueString, ProjectId := st.data.ProjectID.ValueString } with
    | error err =>
      simp only
      obtain ⟨st2, h1, h2, h3⟩ := ih fuel
        { st with
          calls := st.calls ++ [Call.Sleep (10 * time.Second),
            Call.GetNode { Id := st.data.Id.ValueString
                           ProjectId := st.data.ProjectID.ValueString }]
          clockReads := st.clockReads + 1 }
        hip (by omega) hclock2 hlate2
        (by
          intro i hi q node hq
          simp only [hcount] at hq
          refine hresp (i + 1) (by omega) q node ?_
          rwa [← Nat.add_assoc, Nat.add_right_comm])
      exact ⟨st2, h1, h2, h3⟩
    | ok node =>
      simp only
      have hfa : NodeModel.firstAddress node.NetworkInterfaces = none :=
        hresp 0 (Nat.succ_pos K) _ node (by simpa using hget)
      obtain ⟨st2, h1, h2, h3⟩ := ih fuel
        { data := NodeModel.write T st.data node
          nodeIP := NodeModel.firstAddress node.NetworkInterfaces
          calls := st.calls ++ [Call.Sleep (10 * time.Second),
            Call.GetNode { Id := st.data.Id.ValueString
                           ProjectId := st.data.ProjectID.ValueString }]
          clockReads := st.clockReads + 1 }
        hfa (by omega) hclock2 hlate2
        (by
          intro i hi q node2 hq
          simp only [hcount] at hq
          refine hresp (i + 1) (by omega) q node2 ?_
          rwa [← Nat.add_assoc, Nat.add_right_comm])
      exact ⟨st2, h1, h2, by rw [h3]; exact NodeModel.write_IP_of_none T _ _ hfa⟩

/-! ## Create -/

theorem Node.Create_of_created (T : cloudv1.Tables) (r : Node) (now : Nat → Int) (fuel : Nat)
    (req : CreateRequest) (resp : CreateResponse) (nodeData : cloudv1.Node)
    (others : List cloudv1.Node)
    (hdec : Diagnostics.HasError (Diagnostics.Append resp.Diagnostics req.Plan.diags) = false)
    (hcreate : r.client.CreateNode (Node.createNodeRequest T req.Plan.data)
      = .ok (nodeData :: others)) :
    Node.Create T r now fuel req resp =
      match Node.Create.poll T r now (now 0 + 5 * time.Minute) fuel
          (Node.Create.pollStart T req.Plan.data nodeData) with
      | none => .outOfFuel
      | some (.timedOut st) =>
        .done ⟨{ State := resp.State
                 Diagnostics := (Diagnostics.AddError
                  (Diagnostics.Append resp.Diagnostics req.Plan.diags) "Timeout Error"
                  "Unable to get node IP address") }, st.data, st.calls⟩
      | some (.exited st) =>
        if st.data.Tags.Elements.length > 0 then
          match r.client.UpdateNode
            { Id := nodeData.Id
              ProjectId := nodeData.ProjectId
              Fqdn := some nodeData.Fqdn
              Tags := Node.requestTags st.data.Tags.Elements } with
          | .error err =>
            .done ⟨{ State := resp.State
                     Diagnostics := (Diagnostics.AddError
                      (Diagnostics.Append resp.Diagnostics req.Plan.diags) "Client Error"
                      ("Unable to update node after creation, got error: " ++ err.Error)) },
              st.data,
              st.calls ++ [Call.UpdateNode
                { Id := nodeData.Id
                  ProjectId := nodeData.ProjectId
                  Fqdn := some nodeData.Fqdn
                  Tags := Node.requestTags st.data.Tags.Elements }]⟩
          | .ok node =>
            .done ⟨{ State := State.Set resp.State (NodeModel.write T st.data node)
                     Diagnostics := Diagnostics.Append resp.Diagnostics req.Plan.diags },
              NodeModel.write T st.data node,
              st.calls ++ [Call.UpdateNode
                { Id := nodeData.Id
                  ProjectId := nodeData.ProjectId
                  Fqdn := some nodeData.Fqdn
                  Tags := Node.requestTags st.data.Tags.Elements }]⟩
        else
          .done ⟨{ State := State.Set resp.State st.data
                   Diagnostics := Diagnostics.Append resp.Diagnostics req.Plan.diags },
            st.data, st.calls⟩ := by
  unfold Node.Create
  simp only [hdec, hcreate]
  rfl

theorem Node.Create_of_exited (T : cloudv1.Tables) (r : Node) (now : Nat → Int) (fuel : Nat)
    (req : CreateRequest) (resp : CreateResponse) (nodeData : cloudv1.Node)
    (others : List cloudv1.Node) (st : PollState)
    (hdec : Diagnostics.HasError (Diagnostics.Append resp.Diagnostics req.Plan.diags) = false)
    (hcreate : r.client.CreateNode (Node.createNodeRequest T req.Plan.data)
      = .ok (nodeData :: others))
    (hpoll : Node.Create.poll T r now (now 0 + 5 * time.Minute) fuel
      (Node.Create.pollStart T req.Plan.data nodeData) = some (.exited st)) :
    ∃ res, Node.Create T r now fuel req resp = .done res ∧
      (0 < st.data.Tags.Elements.length →
        ∃ u : cloudv1.UpdateNodeRequest, res.calls = st.calls ++ [Call.UpdateNode u] ∧
          u.Tags = Node.requestTags st.data.Tags.Elements) ∧
      (st.data.Tags.Elements = [] → res.calls = st.calls) ∧
      (res.resp.Diagnostics = Diagnostics.Append resp.Diagnostics req.Plan.diags ∨
        ∃ detail, res.resp.Diagnostics = Diagnostics.AddError
          (Diagnostics.Append resp.Diagnostics req.Plan.diags) "Client Error" detail) := by
  rw [Node.Create_of_created T r now fuel req resp nodeData others hdec hcreate, hpoll]
  simp only
  by_cases htags : st.data.Tags.Elements.length > 0
  · rw [if_pos htags]
    have hne : st.data.Tags.Elements ≠ [] := by
      intro h
      rw [h] at htags
      exact Nat.lt_irrefl 0 htags
    cases r.client.UpdateNode
        { Id := nodeData.Id
          ProjectId := nodeData.ProjectId
          Fqdn := some nodeData.Fqdn
          Tags := Node.requestTags st.data.Tags.Elements } with
    | error err =>
      exact ⟨_, rfl, fun _ => ⟨_, rfl, rfl⟩, fun h => absurd h hne, Or.inr ⟨_, rfl⟩⟩
    | ok node =>
      exact ⟨_, rfl, fun _ => ⟨_, rfl, rfl⟩, fun h => absurd h hne, Or.inl rfl⟩
  · rw [if_neg htags]
    exact ⟨_, rfl, fun h => absurd h htags, fun _ => rfl, Or.inl rfl⟩

theorem Node.Create.pollStart_tags (T : cloudv1.Tables) (r : Node) (now : Nat → Int)
    (timeoutAfter : Int) (fuel : Nat) (data : NodeModel) (nodeData : cloudv1.Node)
    (e : PollExit)
    (h : Node.Create.poll T r now timeoutAfter fuel (Node.Create.pollStart T data nodeData)
      = some e) :
    e.state.data.Tags = data.Tags ∧
      ∃ extra, e.state.calls = Call.CreateNode (Node.createNodeRequest T data) :: extra ∧
        ∀ c ∈ extra, c.isUpdateNode = false ∧ c.isCreateNode = false := by
  obtain ⟨h1, extra, h2, h3⟩ := Node.Create.poll_invariant T r now timeoutAfter fuel _ e h
  refine ⟨?_, extra, ?_, h3⟩
  · rw [h1]
    exact NodeModel.write_Tags T data nodeData
  · rw [h2]
    rfl

theorem Call.filter_isUpdateNode_eq_nil (extra : List Call)
    (h : ∀ c ∈ extra, c.isUpdateNode = false ∧ c.isCreateNode = false) :
    extra.filter Call.isUpdateNode = [] := by
  rw [List.filter_eq_nil_iff]
  intro c hc
  simp [(h c hc).1]

/-- Claim C7: if the plan decodes without error, `CreateNode` answers with a node
without address, the first `N` answers of `GetNode` carry no network interface, the
next answer carries one interface whose first address is `a`, and none of the first
`N + 1` deadline checks finds the deadline (five minutes after the first clock
reading) passed, then with more than `N` iterations allowed the polling loop ends
because an address is known, after exactly `N + 1` `GetNode` calls, with the ip field
of the model equal to `a`; `Create` returns, has made `N + 1` `GetNode` calls, and every
"Timeout Error" diagnostic of its response was there before the loop. -/
theorem Create_poll_obtains_address (T : cloudv1.Tables) (r : Node) (now : Nat → Int)
    (fuel : Nat) (req : CreateRequest) (resp : CreateResponse) (nodeData : cloudv1.Node)
    (others : List cloudv1.Node) (N : Nat) (a : String)
    (hdec : Diagnostics.HasError (Diagnostics.Append resp.Diagnostics req.Plan.diags) = false)
    (hcreate : r.client.CreateNode (Node.createNodeRequest T req.Plan.data)
      = .ok (nodeData :: others))
    (hnoaddr : NodeModel.getPrimaryIP req.Plan.data nodeData = none)
    (hfirst : ∀ i, i < N → ∀ q, ∃ node,
      r.client.GetNode i q = .ok node ∧ node.NetworkInterfaces = [])
    (hlast : ∀ q, ∃ node more,
      r.client.GetNode N q = .ok node ∧ node.NetworkInterfaces = [⟨a :: more⟩])
    (hclock : ∀ i, i ≤ N → ¬ now (i + 1) > now 0 + 5 * time.Minute)
    (hfuel : N < fuel) :
    ∃ st, Node.Create.poll T r now (now 0 + 5 * time.Minute) fuel
        (Node.Create.pollStart T req.Plan.data nodeData) = some (.exited st) ∧
      Call.countGetNode st.calls = N + 1 ∧
      st.data.IP = .value a ∧
      ∃ res, Node.Create T r now fuel req resp = .done res ∧
        Call.countGetNode res.calls = N + 1 ∧
        ∀ d ∈ res.resp.Diagnostics, d.summary = "Timeout Error" →
          d ∈ Diagnostics.Append resp.Diagnostics req.Plan.diags := by
  have hstart : Call.countGetNode (Node.Create.pollStart T req.Plan.data nodeData).calls = 0 := rfl
  obtain ⟨st, h1, h2, _, h4⟩ := Node.Create.poll_obtains T r now (now 0 + 5 * time.Minute) a N
    fuel (Node.Create.pollStart T req.Plan.data nodeData) hnoaddr hfuel
    (by
      intro i hi q
      rw [hstart, Nat.zero_add]
      exact hfirst i hi q)
    (by
      intro q
      rw [hstart, Nat.zero_add]
      exact hlast q)
    (by
      intro i hi
      have := hclock i hi
      rwa [Nat.add_comm] at this)
  rw [hstart] at h2
  refine ⟨st, h1, by omega, h4, ?_⟩
  obtain ⟨res, hres, hpos, hnil, hdiag⟩ :=
    Node.Create_of_exited T r now fuel req resp nodeData others st hdec hcreate h1
  refine ⟨res, hres, ?_, ?_⟩
  · by_cases htags : 0 < st.data.Tags.Elements.length
    · obtain ⟨u, hu, _⟩ := hpos htags
      rw [hu]
      simp only [Call.countGetNode, List.filter_append] at h2 ⊢
      simp [List.filter_cons, Call.isGetNode, h2]
    · rw [hnil (List.length_eq_zero.1 (by omega))]
      omega
  · intro d hd hsum
    rcases hdiag with h | ⟨detail, h⟩
    · rwa [h] at hd
    · rw [h] at hd
      rcases Diagnostics.mem_Append_single _ _ _ hd with hd | hd
      · exact hd
      · rw [hd] at hsum
        have hne : ("Client Error" : String) ≠ "Timeout Error" := by decide
        exact absurd hsum hne

/-- Instance of `Create_poll_obtains_address` for claim C7: two answers without
network interface, then one with the address "10.0.0.5", on a clock that advances
ten seconds per reading. -/
theorem Create_poll_obtains_address_witness :
    ∃ st, Node.Create.poll exampleTables ⟨slowClient 2⟩ exampleClock
        (exampleClock 0 + 5 * time.Minute) 10
        (Node.Create.pollStart exampleTables (exampleModel .null) (exampleNode []))
        = some (.exited st) ∧
      Call.countGetNode st.calls = 2 + 1 ∧
      st.data.IP = .value "10.0.0.5" ∧
      ∃ res, Node.Create exampleTables ⟨slowClient 2⟩ exampleClock 10
          ⟨⟨[], exampleModel .null⟩⟩ ⟨emptyState, []⟩ = .done res ∧
        Call.countGetNode res.calls = 2 + 1 ∧
        ∀ d ∈ res.resp.Diagnostics, d.summary = "Timeout Error" →
          d ∈ Diagnostics.Append [] [] :=
  Create_poll_obtains_address exampleTables ⟨slowClient 2⟩ exampleClock 10
    ⟨⟨[], exampleModel .null⟩⟩ ⟨emptyState, []⟩ (exampleNode []) [] 2 "10.0.0.5"
    rfl rfl rfl
    (fun i hi _ => ⟨exampleNode [], by simp [slowClient, hi], rfl⟩)
    (fun _ => ⟨exampleNode [⟨["10.0.0.5"]⟩], [], by simp [slowClient], rfl⟩)
    (fun i hi => by
      simp only [exampleClock, time.Minute, time.Second]
      push_cast
      omega)
    (by decide)

/-- Claim C8: in a run of `Create` in which the plan decodes without error,
`CreateNode` succeeds and the polling loop ends with an address, the calls up to the
end of the loop start with the `CreateNode` call and hold no other `CreateNode` and no
`UpdateNode` call; when the tags map of the plan has an element, `Create` then makes one
`UpdateNode` call, carrying the tags, as its last call, and it is the only one; when
the tags map has no element (empty, null or unknown) `Create` makes no further call
and so no `UpdateNode` call; the `CreateNode` request does not depend on the tags. -/
theorem Create_tags_update (T : cloudv1.Tables) (r : Node) (now : Nat → Int)
    (fuel : Nat) (req : CreateRequest) (resp : CreateResponse) (nodeData : cloudv1.Node)
    (others : List cloudv1.Node) (st : PollState)
    (hdec : Diagnostics.HasError (Diagnostics.Append resp.Diagnostics req.Plan.diags) = false)
    (hcreate : r.client.CreateNode (Node.createNodeRequest T req.Plan.data)
      = .ok (nodeData :: others))
    (hpoll : Node.Create.poll T r now (now 0 + 5 * time.Minute) fuel
      (Node.Create.pollStart T req.Plan.data nodeData) = some (.exited st)) :
    ∃ res, Node.Create T r now fuel req resp = .done res ∧
      (∃ extra, st.calls = Call.CreateNode (Node.createNodeRequest T req.Plan.data) :: extra ∧
        extra.filter Call.isUpdateNode = [] ∧ extra.filter Call.isCreateNode = []) ∧
      (0 < req.Plan.data.Tags.Elements.length →
        ∃ u : cloudv1.UpdateNodeRequest, res.calls = st.calls ++ [Call.UpdateNode u] ∧
          u.Tags = Node.requestTags req.Plan.data.Tags.Elements ∧
          (res.calls.filter Call.isUpdateNode).length = 1) ∧
      (req.Plan.data.Tags.Elements = [] →
        res.calls = st.calls ∧ res.calls.filter Call.isUpdateNode = []) ∧
      (∀ tags : TfMap,
        Node.createNodeRequest T { req.Plan.data with Tags := tags }
          = Node.createNodeRequest T req.Plan.data) := by
  obtain ⟨htags, extra, hcalls, hextra⟩ :=
    Node.Create.pollStart_tags T r now _ fuel req.Plan.data nodeData _ hpoll
  simp only [PollExit.state] at htags hcalls
  obtain ⟨res, hres, hpos, hnil, _⟩ :=
    Node.Create_of_exited T r now fuel req resp nodeData others st hdec hcreate hpoll
  have hnoupd : extra.filter Call.isUpdateNode = [] := Call.filter_isUpdateNode_eq_nil extra hextra
  have hnocre : extra.filter Call.isCreateNode = [] := by
    rw [List.filter_eq_nil_iff]
    intro c hc
    simp [(hextra c hc).2]
  have hstupd : st.calls.filter Call.isUpdateNode = [] := by
    rw [hcalls]
    simp [List.filter_cons, Call.isUpdateNode, hnoupd]
  rw [htags] at hpos hnil
  refine ⟨res, hres, ⟨extra, hcalls, hnoupd, hnocre⟩, ?_, ?_, fun _ => rfl⟩
  · intro h
    obtain ⟨u, hu, hut⟩ := hpos h
    refine ⟨u, hu, hut, ?_⟩
    rw [hu, List.filter_append, hstupd]
    simp [List.filter_cons, Call.isUpdateNode]
  · intro h
    have := hnil h
    exact ⟨this, by rw [this]; exact hstupd⟩

/-- Instances of `Create_tags_update` for claim C8: with one tag in the plan the run
makes one `UpdateNode` call, with a null tags map it makes none. -/
theorem Create_tags_update_witness :
    (∃ res, Node.Create exampleTables ⟨slowClient 2⟩ exampleClock 10
        ⟨⟨[], exampleModel (.value [("k", .str (.value "v"))])⟩⟩ ⟨emptyState, []⟩ = .done res ∧
      (res.calls.filter Call.isUpdateNode).length = 1) ∧
    (∃ res, Node.Create exampleTables ⟨slowClient 2⟩ exampleClock 10
        ⟨⟨[], exampleModel .null⟩⟩ ⟨emptyState, []⟩ = .done res ∧
      res.calls.filter Call.isUpdateNode = []) := by
  obtain ⟨res1, h1, _, h1pos, _, _⟩ := Create_tags_update exampleTables ⟨slowClient 2⟩
    exampleClock 10 ⟨⟨[], exampleModel (.value [("k", .str (.value "v"))])⟩⟩ ⟨emptyState, []⟩
    (exampleNode []) [] (examplePollEnd (.value [("k", .str (.value "v"))])) rfl rfl
    (by decide)
  obtain ⟨res2, h2, _, _, h2nil, _⟩ := Create_tags_update exampleTables ⟨slowClient 2⟩
    exampleClock 10 ⟨⟨[], exampleModel .null⟩⟩ ⟨emptyState, []⟩
    (exampleNode []) [] (examplePollEnd .null) rfl rfl (by decide)
  obtain ⟨u, _, _, hlen⟩ := h1pos (by decide)
  exact ⟨⟨res1, h1, hlen⟩, ⟨res2, h2, (h2nil rfl).2⟩⟩

/-- Claim C9: if the plan decodes without error, `CreateNode` answers with a node
without address, the deadline (five minutes after the first clock reading) is found
passed for the first time at deadline check `K + 1`, and no answer of `GetNode` before
that carries an address, then with more than `K` iterations allowed `Create` returns
with the error "Timeout Error" appended, the ip field of its model is still that of
the plan, it has made no `UpdateNode` call and the state of the response is as it
was. -/
theorem Create_times_out (T : cloudv1.Tables) (r : Node) (now : Nat → Int)
    (fuel : Nat) (req : CreateRequest) (resp : CreateResponse) (nodeData : cloudv1.Node)
    (others : List cloudv1.Node) (K : Nat)
    (hdec : Diagnostics.HasError (Diagnostics.Append resp.Diagnostics req.Plan.diags) = false)
    (hcreate : r.client.CreateNode (Node.createNodeRequest T req.Plan.data)
      = .ok (nodeData :: others))
    (hnoaddr : NodeModel.getPrimaryIP req.Plan.data nodeData = none)
    (hclock : ∀ i, i < K → ¬ now (i + 1) > now 0 + 5 * time.Minute)
    (hlate : now (K + 1) > now 0 + 5 * time.Minute)
    (hresp : ∀ i, i < K → ∀ q node, r.client.GetNode i q = .ok node →
      NodeModel.getPrimaryIP req.Plan.data node = none)
    (hfuel : K < fuel) :
    ∃ res, Node.Create T r now fuel req resp = .done res ∧
      res.resp.Diagnostics = Diagnostics.AddError
        (Diagnostics.Append resp.Diagnostics req.Plan.diags) "Timeout Error"
        "Unable to get node IP address" ∧
      Diagnostics.HasError res.resp.Diagnostics = true ∧
      res.data.IP = req.Plan.data.IP ∧
      res.calls.filter Call.isUpdateNode = [] ∧
      res.resp.State = resp.State := by
  have hstart : Call.countGetNode (Node.Create.pollStart T req.Plan.data nodeData).calls = 0 := rfl
  obtain ⟨st, h1, _, h3⟩ := Node.Create.poll_expires T r now (now 0 + 5 * time.Minute) K
    fuel (Node.Create.pollStart T req.Plan.data nodeData) hnoaddr hfuel
    (by
      intro i hi
      have := hclock i hi
      rwa [Nat.add_comm] at this)
    (by
      have := hlate
      rwa [Nat.add_comm] at this)
    (by
      intro i hi q node hq
      rw [hstart, Nat.zero_add] at hq
      exact hresp i hi q node hq)
  obtain ⟨_, extra, hcalls, hextra⟩ :=
    Node.Create.pollStart_tags T r now _ fuel req.Plan.data nodeData _ h1
  simp only [PollExit.state] at hcalls
  rw [Node.Create_of_created T r now fuel req resp nodeData others hdec hcreate, h1]
  refine ⟨_, rfl, rfl, Diagnostics.HasError_Append_error _ _ rfl, ?_, ?_, rfl⟩
  · show st.data.IP = req.Plan.data.IP
    rw [h3]
    exact NodeModel.write_IP_of_none T _ _ hnoaddr
  · show st.calls.filter Call.isUpdateNode = []
    rw [hcalls]
    simp [List.filter_cons, Call.isUpdateNode, Call.filter_isUpdateNode_eq_nil extra hextra]

/-- Instance of `Create_times_out` for claim C9: a clock that is past the deadline
at the third check, and answers of `GetNode` without network interface. -/
theorem Create_times_out_witness :
    ∃ res, Node.Create exampleTables ⟨slowClient 100⟩ lateClock 10
        ⟨⟨[], exampleModel (.value [("k", .str (.value "v"))])⟩⟩ ⟨emptyState, []⟩ = .done res ∧
      res.resp.Diagnostics = Diagnostics.AddError (Diagnostics.Append [] []) "Timeout Error"
        "Unable to get node IP address" ∧
      Diagnostics.HasError res.resp.Diagnostics = true ∧
      res.data.IP = .unknown ∧
      res.calls.filter Call.isUpdateNode = [] ∧
      res.resp.State = emptyState :=
  Create_times_out exampleTables ⟨slowClient 100⟩ lateClock 10
    ⟨⟨[], exampleModel (.value [("k", .str (.value "v"))])⟩⟩ ⟨emptyState, []⟩
    (exampleNode []) [] 2 rfl rfl rfl
    (fun i hi => by
      have h : i + 1 < 3 := by omega
      simp only [lateClock, h, if_true, time.Minute, time.Second]
      push_cast
      omega)
    (by decide)
    (fun i hi _ node h => by
      have hi2 : i < 100 := by omega
      simp only [slowClient, hi2, if_true, Except.ok.injEq] at h
      rw [← h]
      rfl)
    (by decide)

end GPCore
